import Mathlib

/-
Verification of the keyframe codec (animation.rs) and the two-bone IK solver
(ik_two_bone_job.rs) of the ozz-animation-rs numeric core.

Modelling conventions:
* Machine integers (u16/u8/i16/i32) are Nat/Int; wherever the Rust code masks
  or shifts, the same mask/shift appears here.
* f32 arithmetic is modelled over the exact reals (f32 literals as exact
  rationals); sqrt is Real.sqrt, acos is Real.arccos.  Integer-bit tricks on
  floats (sign-bit or/xor) are modelled by their effect on the sign of the
  (provably positive or zeroed) float they are applied to.
* Helpers living in modules of the repository that are not part of the two
  source files (math.rs, archive.rs) are modelled from the spec; each such
  definition carries a doc comment starting with "Modelled from the spec:".
-/

set_option maxRecDepth 8000

namespace Ozz

/-! ## QuaternionKey: packed bit field (animation.rs lines 51-115, 177-191) -/

/-- Compressed rotation key: `bit_field` packs track (13 bits), largest (2
bits) and sign (1 bit); `value` holds the three quantized small components. -/
structure QuaternionKey where
  ratio : ℚ
  bit_field : ℕ
  value : Fin 3 → ℤ

/-- Accessor `track()`: `self.bit_field >> 3`. -/
def QuaternionKey.track (k : QuaternionKey) : ℕ := k.bit_field >>> 3

/-- Accessor `largest()`: `(self.bit_field & 0x6) >> 1`. -/
def QuaternionKey.largest (k : QuaternionKey) : ℕ := (k.bit_field &&& 0x6) >>> 1

/-- Accessor `sign()`: `self.bit_field & 0x1`. -/
def QuaternionKey.sign (k : QuaternionKey) : ℕ := k.bit_field &&& 0x1

theorem QuaternionKey.largest_lt (k : QuaternionKey) : k.largest < 4 := by
  have h1 : k.bit_field &&& 0x6 ≤ 6 := Nat.and_le_right
  have h2 : (k.bit_field &&& 0x6) >>> 1 = (k.bit_field &&& 0x6) / 2 := by
    rw [Nat.shiftRight_eq_div_pow]
  unfold QuaternionKey.largest
  omega

/-- Index of the omitted component as a `Fin 4` (the source indexes arrays of
length 4 with `largest()`, which is always in range). -/
def QuaternionKey.largestFin (k : QuaternionKey) : Fin 4 := ⟨k.largest, k.largest_lt⟩

/-- Bit-field packing performed by `<QuaternionKey as ArchiveReader>::read`
(animation.rs line 183):
`((track & 0x1FFF) << 3) | ((largest & 0x3) << 1) | (sign & 0x1)`. -/
def quatPackBits (track largest sgn : ℕ) : ℕ :=
  (((track &&& 0x1FFF) <<< 3) ||| ((largest &&& 0x3) <<< 1)) ||| (sgn &&& 0x1)

/-! ### Bit-arithmetic facts used to invert the packing -/

theorem or_shiftLeft_of_lt (a b n : ℕ) (h : b < 2 ^ n) :
    a <<< n ||| b = 2 ^ n * a + b := by
  apply Nat.eq_of_testBit_eq
  intro i
  rw [Nat.testBit_or, Nat.testBit_mul_pow_two_add a h, Nat.testBit_shiftLeft]
  rcases Nat.lt_or_ge i n with hi | hi
  · simp [hi, Nat.not_le_of_lt hi]
  · have hb : b.testBit i = false :=
      Nat.testBit_lt_two_pow (lt_of_lt_of_le h (Nat.pow_le_pow_right (by norm_num) hi))
    simp [hb, hi, Nat.not_lt_of_le hi]

theorem quatPackBits_eq (t l s : ℕ) :
    quatPackBits t l s = 8 * (t % 8192) + 2 * (l % 4) + s % 2 := by
  unfold quatPackBits
  have h1 : t &&& 0x1FFF = t % 8192 := Nat.and_pow_two_sub_one_eq_mod t 13
  have h2 : l &&& 0x3 = l % 4 := Nat.and_pow_two_sub_one_eq_mod l 2
  have h3 : s &&& 0x1 = s % 2 := Nat.and_pow_two_sub_one_eq_mod s 1
  have hl4 : l % 4 < 4 := Nat.mod_lt _ (by norm_num)
  have hs2 : s % 2 < 2 := Nat.mod_lt _ (by norm_num)
  have h4 : (t % 8192) <<< 3 ||| (l % 4) <<< 1 = 8 * (t % 8192) + 2 * (l % 4) := by
    have := or_shiftLeft_of_lt (t % 8192) ((l % 4) <<< 1) 3
      (by rw [Nat.shiftLeft_eq]; omega)
    rw [this, Nat.shiftLeft_eq]; ring
  have h5 : 8 * (t % 8192) + 2 * (l % 4) = (4 * (t % 8192) + (l % 4)) <<< 1 := by
    rw [Nat.shiftLeft_eq]; ring
  rw [h1, h2, h3, h4, h5, or_shiftLeft_of_lt _ _ 1 (by omega), Nat.shiftLeft_eq] at *
  ring

theorem packed_shiftRight_three (a b c : ℕ) (hb : b < 4) (hc : c < 2) :
    (8 * a + 2 * b + c) >>> 3 = a := by
  rw [Nat.shiftRight_eq_div_pow]
  omega

theorem small_and_six : ∀ b < 4, ∀ c < 2, (2 * b + c) &&& 6 = 2 * b := by decide

theorem packed_and_six_shiftRight_one (a b c : ℕ) (hb : b < 4) (hc : c < 2) :
    ((8 * a + 2 * b + c) &&& 6) >>> 1 = b := by
  have h6 : (6 : ℕ) = 7 &&& 6 := by decide
  have h1 : (8 * a + 2 * b + c) &&& 6 = ((8 * a + 2 * b + c) &&& 7) &&& 6 := by
    conv_lhs => rw [h6]
    rw [Nat.land_assoc]
  have h2 : (8 * a + 2 * b + c) &&& 7 = 2 * b + c := by
    have := Nat.and_pow_two_sub_one_eq_mod (8 * a + 2 * b + c) 3
    norm_num at this
    omega
  rw [h1, h2, small_and_six b hb c hc, Nat.shiftRight_eq_div_pow]
  omega

theorem packed_and_one (a b c : ℕ) (hc : c < 2) : (8 * a + 2 * b + c) &&& 1 = c := by
  rw [Nat.and_one_is_mod]
  omega

/-- Accessors applied to a freshly packed bit field, for arbitrary (wire-width)
inputs: the packing silently truncates each field. -/
theorem quatPack_accessors (r : ℚ) (v : Fin 3 → ℤ) (t l s : ℕ) :
    (QuaternionKey.mk r (quatPackBits t l s) v).track = t % 8192 ∧
    (QuaternionKey.mk r (quatPackBits t l s) v).largest = l % 4 ∧
    (QuaternionKey.mk r (quatPackBits t l s) v).sign = s % 2 := by
  have hl4 : l % 4 < 4 := Nat.mod_lt _ (by norm_num)
  have hs2 : s % 2 < 2 := Nat.mod_lt _ (by norm_num)
  refine ⟨?_, ?_, ?_⟩
  · show quatPackBits t l s >>> 3 = t % 8192
    rw [quatPackBits_eq]
    exact packed_shiftRight_three _ _ _ hl4 hs2
  · show (quatPackBits t l s &&& 0x6) >>> 1 = l % 4
    rw [quatPackBits_eq]
    exact packed_and_six_shiftRight_one _ _ _ hl4 hs2
  · show quatPackBits t l s &&& 0x1 = s % 2
    rw [quatPackBits_eq]
    exact packed_and_one _ _ _ hs2

/-! ## QuaternionKey.decompress (animation.rs lines 88-115)

The steps of the source function appear as named definitions in source order:
permutation lookup, zeroing of the largest slot, fixed-point scaling, dot
product, clamped floor, square root, sign restore, write-back. -/

/-- Permutation table `MAPPING` (line 89); rows are indexed by `largest()`,
which is always `< 4`, so the catch-all row is never reached from a key. -/
def MAPPING : ℕ → Fin 4 → Fin 3
  | 0 => ![0, 0, 1, 2]
  | 1 => ![0, 0, 1, 2]
  | 2 => ![0, 1, 0, 2]
  | _ => ![0, 1, 2, 0]

/-- Scale constant `1.0 / (32767.0 * sqrt 2)` (line 100), over the reals. -/
noncomputable def INT_2_FLOAT : ℝ := 1 / (32767 * Real.sqrt 2)

/-- `cmp_keys` after the `cmp_keys[self.largest()] = 0` write (lines 92-98). -/
def QuaternionKey.cmp_keys (k : QuaternionKey) : Fin 4 → ℤ :=
  Function.update (fun i => k.value (MAPPING k.largest i)) k.largestFin 0

/-- The scaled components `cpnt` before the largest slot is restored
(lines 101-106). -/
noncomputable def QuaternionKey.cpnt (k : QuaternionKey) : Fin 4 → ℝ :=
  fun i => (k.cmp_keys i : ℝ) * INT_2_FLOAT

/-- `dot = cpnt[0]*cpnt[0] + ... + cpnt[3]*cpnt[3]` (line 108). -/
noncomputable def QuaternionKey.qdot (k : QuaternionKey) : ℝ :=
  k.cpnt 0 * k.cpnt 0 + k.cpnt 1 * k.cpnt 1 + k.cpnt 2 * k.cpnt 2 + k.cpnt 3 * k.cpnt 3

/-- `ww0 = max(1e-16, 1 - dot)` (line 109). -/
noncomputable def QuaternionKey.ww0 (k : QuaternionKey) : ℝ := max 1e-16 (1 - k.qdot)

/-- `w0 = ww0.sqrt()` (line 110). -/
noncomputable def QuaternionKey.w0 (k : QuaternionKey) : ℝ := Real.sqrt k.ww0

/-- `restored = if sign == 0 { w0 } else { -w0 }` (line 111). -/
noncomputable def QuaternionKey.restored (k : QuaternionKey) : ℝ :=
  if k.sign = 0 then k.w0 else -k.w0

/-- `decompress`: the final quaternion, components indexed x=0, y=1, z=2, w=3
(lines 113-114). -/
noncomputable def QuaternionKey.decompress (k : QuaternionKey) : Fin 4 → ℝ :=
  Function.update k.cpnt k.largestFin k.restored

/-- Squared Euclidean norm of a quaternion given as 4 components. -/
def quatNormSq (q : Fin 4 → ℝ) : ℝ := q 0 * q 0 + q 1 * q 1 + q 2 * q 2 + q 3 * q 3

theorem QuaternionKey.ww0_pos (k : QuaternionKey) : 0 < k.ww0 :=
  lt_of_lt_of_le (by norm_num) (le_max_left _ _)

theorem QuaternionKey.cpnt_largestFin (k : QuaternionKey) : k.cpnt k.largestFin = 0 := by
  unfold QuaternionKey.cpnt QuaternionKey.cmp_keys
  rw [Function.update_same]
  norm_num

theorem QuaternionKey.restored_mul_self (k : QuaternionKey) :
    k.restored * k.restored = k.ww0 := by
  unfold QuaternionKey.restored QuaternionKey.w0
  have h := Real.mul_self_sqrt (le_of_lt k.ww0_pos)
  split <;> nlinarith [h]

/-- The squared norm of the reconstructed quaternion is `dot + max(1e-16, 1-dot)`. -/
theorem QuaternionKey.normSq_decompress (k : QuaternionKey) :
    quatNormSq k.decompress = k.qdot + k.ww0 := by
  have hz := k.cpnt_largestFin
  have hr := k.restored_mul_self
  unfold quatNormSq QuaternionKey.decompress QuaternionKey.qdot
  generalize hl : k.largestFin = l at hz ⊢
  fin_cases l <;>
    simp [Function.update_apply, Fin.ext_iff, show ((1 : Fin 4) : ℕ) = 1 from rfl,
      show ((2 : Fin 4) : ℕ) = 2 from rfl, show ((3 : Fin 4) : ℕ) = 3 from rfl] at hz ⊢ <;>
    nlinarith [hr, hz]

theorem INT_2_FLOAT_mul_self : INT_2_FLOAT * INT_2_FLOAT = 1 / 2147352578 := by
  unfold INT_2_FLOAT
  have h2 : Real.sqrt 2 * Real.sqrt 2 = 2 := Real.mul_self_sqrt (by norm_num)
  rw [div_mul_div_comm, one_mul,
    show (32767 : ℝ) * Real.sqrt 2 * (32767 * Real.sqrt 2) =
      1073676289 * (Real.sqrt 2 * Real.sqrt 2) by ring, h2]
  norm_num

theorem QuaternionKey.qdot_eq (k : QuaternionKey) :
    k.qdot = ((k.cmp_keys 0 : ℝ) ^ 2 + (k.cmp_keys 1 : ℝ) ^ 2 +
      (k.cmp_keys 2 : ℝ) ^ 2 + (k.cmp_keys 3 : ℝ) ^ 2) / 2147352578 := by
  unfold QuaternionKey.qdot QuaternionKey.cpnt
  linear_combination ((k.cmp_keys 0 : ℝ) ^ 2 + (k.cmp_keys 1 : ℝ) ^ 2 +
    (k.cmp_keys 2 : ℝ) ^ 2 + (k.cmp_keys 3 : ℝ) ^ 2) * INT_2_FLOAT_mul_self

/-- C1 (amended): `QuaternionKey.decompress()` returns an exactly unit-length
quaternion (real-arithmetic model of the f32 code) for every key whose scaled
stored components satisfy `dot ≤ 1 - 1e-16` — as any encoder-produced key
does.  For stored values with `dot > 1 - 1e-16` the positive floor in
`max(1e-16, 1 - dot)` makes the squared norm `dot + 1e-16 ≠ 1`, so the
original "for any 3x16-bit values" claim fails (see the counterexample). -/
theorem C1_decompress_unit (k : QuaternionKey) (h : k.qdot ≤ 1 - 1e-16) :
    Real.sqrt (quatNormSq k.decompress) = 1 := by
  rw [k.normSq_decompress]
  have hm : k.ww0 = 1 - k.qdot := max_eq_right (by linarith)
  rw [hm, show k.qdot + (1 - k.qdot) = 1 by ring, Real.sqrt_one]

/-- Witness for C1 at the repository's own fixture key
`largest=3, sign=0, value=[396,409,282]` (bit_field `(3 << 1) | 0 = 6`). -/
theorem C1_decompress_unit_witness :
    QuaternionKey.qdot ⟨0, 6, ![396, 409, 282]⟩ ≤ 1 - 1e-16 ∧
    Real.sqrt (quatNormSq (QuaternionKey.decompress ⟨0, 6, ![396, 409, 282]⟩)) = 1 := by
  have hq : QuaternionKey.qdot ⟨0, 6, ![396, 409, 282]⟩ = 403621 / 2147352578 := by
    rw [QuaternionKey.qdot_eq]
    norm_num [show QuaternionKey.cmp_keys ⟨0, 6, ![396, 409, 282]⟩ 0 = 396 from rfl,
      show QuaternionKey.cmp_keys ⟨0, 6, ![396, 409, 282]⟩ 1 = 409 from rfl,
      show QuaternionKey.cmp_keys ⟨0, 6, ![396, 409, 282]⟩ 2 = 282 from rfl,
      show QuaternionKey.cmp_keys ⟨0, 6, ![396, 409, 282]⟩ 3 = 0 from rfl]
  have h : QuaternionKey.qdot ⟨0, 6, ![396, 409, 282]⟩ ≤ 1 - 1e-16 := by
    rw [hq]; norm_num
  exact ⟨h, C1_decompress_unit _ h⟩

/-- Counterexample to C1 as stated: the key `largest=0, sign=0,
value=[32767,32767,32767]` decompresses to a quaternion of squared norm
`3/2 + 1e-16`, hence of length `> 6/5` — not unit within any float epsilon. -/
theorem C1_counterexample :
    quatNormSq (QuaternionKey.decompress ⟨0, 0, ![32767, 32767, 32767]⟩) = 3 / 2 + 1e-16 ∧
    (6 : ℝ) / 5 <
      Real.sqrt (quatNormSq (QuaternionKey.decompress ⟨0, 0, ![32767, 32767, 32767]⟩)) := by
  have hq : QuaternionKey.qdot ⟨0, 0, ![32767, 32767, 32767]⟩ = 3 / 2 := by
    rw [QuaternionKey.qdot_eq]
    norm_num [show QuaternionKey.cmp_keys ⟨0, 0, ![32767, 32767, 32767]⟩ 0 = 0 from rfl,
      show QuaternionKey.cmp_keys ⟨0, 0, ![32767, 32767, 32767]⟩ 1 = 32767 from rfl,
      show QuaternionKey.cmp_keys ⟨0, 0, ![32767, 32767, 32767]⟩ 2 = 32767 from rfl,
      show QuaternionKey.cmp_keys ⟨0, 0, ![32767, 32767, 32767]⟩ 3 = 32767 from rfl]
  have hw : QuaternionKey.ww0 ⟨0, 0, ![32767, 32767, 32767]⟩ = 1e-16 := by
    unfold QuaternionKey.ww0
    rw [hq]
    exact max_eq_left (by norm_num)
  have hn : quatNormSq (QuaternionKey.decompress ⟨0, 0, ![32767, 32767, 32767]⟩) =
      3 / 2 + 1e-16 := by
    rw [QuaternionKey.normSq_decompress, hq, hw]
  refine ⟨hn, ?_⟩
  rw [hn]
  exact (Real.lt_sqrt (by norm_num)).mpr (by norm_num)

/-! ## QuaternionKey.simd_decompress (animation.rs lines 117-174)

The SoA output is a function `row → lane → ℝ` (`row` 0..3 = x,y,z,w
components, `lane` 0..3 = which of the four keys).  The two integer-bit
operations of the source are modelled by their effect on the value:
`as_i32x4(w0) | (sign << 31)` negates the (strictly positive) `w0` exactly
when the sign bit is set, and ORing `restored` into the lane whose bits are
those of `0.0` yields `restored` itself. -/

/-- Column `lane` of the simd `cmp_keys` matrix after the four writes
`cmp_keys[k_i.largest()][i] = 0.0` (lines 142-151); each column only
involves its own key. -/
noncomputable def QuaternionKey.simdCmp (k : QuaternionKey) (row : Fin 4) : ℝ :=
  if row = k.largestFin then 0 else (k.value (MAPPING k.largest row) : ℝ)

/-- Column `lane` of `cpnt = INT_2_FLOAT * cmp_keys` (lines 153-158). -/
noncomputable def QuaternionKey.simdCpnt (k : QuaternionKey) (row : Fin 4) : ℝ :=
  INT_2_FLOAT * k.simdCmp row

/-- Lane `lane` of `dot` (line 159). -/
noncomputable def QuaternionKey.simdDot (k : QuaternionKey) : ℝ :=
  k.simdCpnt 0 * k.simdCpnt 0 + k.simdCpnt 1 * k.simdCpnt 1 +
    k.simdCpnt 2 * k.simdCpnt 2 + k.simdCpnt 3 * k.simdCpnt 3

/-- Lane of `ww0 = simd_max(SMALL, ONE - dot)` (line 160). -/
noncomputable def QuaternionKey.simdWw0 (k : QuaternionKey) : ℝ :=
  max 1e-16 (1 - k.simdDot)

/-- Lane of `w0 = ww0 * ww0.recip().sqrt()` (line 161). -/
noncomputable def QuaternionKey.simdW0 (k : QuaternionKey) : ℝ :=
  k.simdWw0 * Real.sqrt (k.simdWw0)⁻¹

/-- Lane of `restored = as_i32x4(w0) | sign` (lines 162-163): the sign bit
ORed into the strictly positive `w0` negates it exactly when `sign() = 1`. -/
noncomputable def QuaternionKey.simdRestored (k : QuaternionKey) : ℝ :=
  if k.sign = 0 then k.simdW0 else -k.simdW0

/-- `QuaternionKey::simd_decompress` (lines 118-174): lane `lane` of output
row `row`.  The merge (lines 165-168) ORs each lane's `restored` into that
lane's zeroed largest slot and leaves every other slot of the lane as its
`cpnt` value. -/
noncomputable def QuaternionKey.simd_decompress (k0 k1 k2 k3 : QuaternionKey) :
    Fin 4 → Fin 4 → ℝ :=
  fun row lane =>
    if row = (![k0, k1, k2, k3] lane).largestFin then (![k0, k1, k2, k3] lane).simdRestored
    else (![k0, k1, k2, k3] lane).simdCpnt row

theorem mul_sqrt_inv_eq_sqrt (x : ℝ) :
    x * Real.sqrt x⁻¹ = Real.sqrt x := by
  rw [Real.sqrt_inv, ← div_eq_mul_inv, Real.div_sqrt]

theorem QuaternionKey.cmp_keys_apply (k : QuaternionKey) (i : Fin 4) :
    k.cmp_keys i = if i = k.largestFin then 0 else k.value (MAPPING k.largest i) := by
  unfold QuaternionKey.cmp_keys
  rw [Function.update_apply]

/-! ## Float3Key (animation.rs lines 13-49) -/

/-- Compressed translation/scale key; the three values are half floats
stored as raw u16 bit patterns. -/
structure Float3Key where
  ratio : ℚ
  track : ℕ
  value : Fin 3 → ℕ

/-- Modelled from the spec: `f16_to_f32` (math.rs, not under src/) expands a
half-precision float, given as its 16-bit pattern, to full precision.  Normal
and subnormal values follow IEEE 754 binary16 exactly; the exponent-31 band
(infinities/NaNs), which has no exact-real meaning, is extended by the same
normal-value formula. -/
def f16_to_f32 (n : ℕ) : ℚ :=
  let s : ℚ := if (n >>> 15) &&& 1 = 1 then -1 else 1
  let e : ℕ := (n >>> 10) &&& 31
  let f : ℕ := n &&& 1023
  if e = 0 then s * ((f : ℚ) / 2 ^ 24)
  else s * ((2 ^ e : ℚ) / 2 ^ 15) * (1 + (f : ℚ) / 1024)

/-- `Float3Key::decompress` (lines 27-33). -/
def Float3Key.decompress (k : Float3Key) : Fin 3 → ℚ :=
  fun i => f16_to_f32 (k.value i)

/-- Modelled from the spec: `simd_f16_to_f32` (math.rs, not under src/)
decodes 4 half floats in lockstep, one per lane. -/
def simd_f16_to_f32 (v : Fin 4 → ℕ) : Fin 4 → ℚ :=
  fun lane => f16_to_f32 (v lane)

/-- `Float3Key::simd_decompress` (lines 35-39): component `comp` of the SoA
output gathers the `comp`-th value of the four keys. -/
def Float3Key.simd_decompress (k0 k1 k2 k3 : Float3Key) : Fin 3 → Fin 4 → ℚ :=
  fun comp => simd_f16_to_f32 ![k0.value comp, k1.value comp, k2.value comp, k3.value comp]

theorem QuaternionKey.simdCpnt_eq_cpnt (k : QuaternionKey) (row : Fin 4) :
    k.simdCpnt row = k.cpnt row := by
  unfold QuaternionKey.simdCpnt QuaternionKey.simdCmp QuaternionKey.cpnt
  rw [k.cmp_keys_apply row]
  push_cast [apply_ite (fun z : ℤ => (z : ℝ))]
  ring

theorem QuaternionKey.simdDot_eq_qdot (k : QuaternionKey) : k.simdDot = k.qdot := by
  unfold QuaternionKey.simdDot QuaternionKey.qdot
  rw [k.simdCpnt_eq_cpnt 0, k.simdCpnt_eq_cpnt 1, k.simdCpnt_eq_cpnt 2, k.simdCpnt_eq_cpnt 3]

theorem QuaternionKey.simdRestored_eq_restored (k : QuaternionKey) :
    k.simdRestored = k.restored := by
  unfold QuaternionKey.simdRestored QuaternionKey.simdW0 QuaternionKey.simdWw0
  unfold QuaternionKey.restored QuaternionKey.w0
  rw [k.simdDot_eq_qdot]
  rw [show max 1e-16 (1 - k.qdot) = k.ww0 from rfl, mul_sqrt_inv_eq_sqrt _]

theorem simdLane_eq_decompress (k : QuaternionKey) (row : Fin 4) :
    (if row = k.largestFin then k.simdRestored else k.simdCpnt row) =
      k.decompress row := by
  unfold QuaternionKey.decompress
  rw [Function.update_apply, k.simdRestored_eq_restored, k.simdCpnt_eq_cpnt]

/-- C2: batched 4-wide decompression agrees lane-for-lane with four scalar
`decompress()` calls, exactly (real-arithmetic model), for both key types. -/
theorem C2_simd_matches_scalar :
    (∀ k0 k1 k2 k3 : QuaternionKey, ∀ row lane : Fin 4,
      QuaternionKey.simd_decompress k0 k1 k2 k3 row lane =
        (![k0, k1, k2, k3] lane).decompress row) ∧
    (∀ k0 k1 k2 k3 : Float3Key, ∀ comp : Fin 3, ∀ lane : Fin 4,
      Float3Key.simd_decompress k0 k1 k2 k3 comp lane =
        (![k0, k1, k2, k3] lane).decompress comp) := by
  constructor
  · intro k0 k1 k2 k3 row lane
    show (if row = (![k0, k1, k2, k3] lane).largestFin
        then (![k0, k1, k2, k3] lane).simdRestored
        else (![k0, k1, k2, k3] lane).simdCpnt row) = _
    exact simdLane_eq_decompress (![k0, k1, k2, k3] lane) row
  · intro k0 k1 k2 k3 comp lane
    fin_cases lane <;> rfl

/-! ## Archive deserialization (animation.rs lines 42-49, 177-259)

Modelled from the spec: the archive reader (archive.rs is not under src/) is a
tagged, versioned byte-stream reader.  It is modelled as a list of typed
primitive tokens; each `read` of a primitive consumes the head token when it
has the expected type and otherwise fails with a propagated stream error.
`Animation::read` itself is translated from animation.rs. -/

/-- Error kinds of the crate that the two source files can produce, plus the
propagated low-level stream error of the archive reader. -/
inductive OzzError where
  | invalidTag
  | invalidVersion
  | invalidJob
  | streamErr
deriving DecidableEq

/-- One primitive value on the wire. -/
inductive Val where
  | vF32 (q : ℚ)
  | vU16 (n : ℕ)
  | vU8 (n : ℕ)
  | vI16 (z : ℤ)
  | vI32 (z : ℤ)
  | vU32 (n : ℕ)
  | vStr (s : String)
deriving DecidableEq

/-- Modelled from the spec: the input archive is the remaining token stream. -/
abbrev IArchive := List Val

/-- Modelled from the spec: `archive.read::<f32>()`. -/
def readF32 : IArchive → Except OzzError (ℚ × IArchive)
  | Val.vF32 q :: r => .ok (q, r)
  | _ => .error .streamErr

/-- Modelled from the spec: `archive.read::<u16>()`. -/
def readU16 : IArchive → Except OzzError (ℕ × IArchive)
  | Val.vU16 n :: r => .ok (n, r)
  | _ => .error .streamErr

/-- Modelled from the spec: `archive.read::<u8>()`. -/
def readU8 : IArchive → Except OzzError (ℕ × IArchive)
  | Val.vU8 n :: r => .ok (n, r)
  | _ => .error .streamErr

/-- Modelled from the spec: `archive.read::<i16>()`. -/
def readI16 : IArchive → Except OzzError (ℤ × IArchive)
  | Val.vI16 z :: r => .ok (z, r)
  | _ => .error .streamErr

/-- Modelled from the spec: `archive.read::<i32>()`. -/
def readI32 : IArchive → Except OzzError (ℤ × IArchive)
  | Val.vI32 z :: r => .ok (z, r)
  | _ => .error .streamErr

/-- Modelled from the spec: `archive.read_version()`, a u32. -/
def read_version : IArchive → Except OzzError (ℕ × IArchive)
  | Val.vU32 n :: r => .ok (n, r)
  | _ => .error .streamErr

/-- Modelled from the spec: the tag string as stored at the head of the
archive. -/
def readStr : IArchive → Except OzzError (String × IArchive)
  | Val.vStr s :: r => .ok (s, r)
  | _ => .error .streamErr

/-- Modelled from the spec: `archive.test_tag::<T>()` reads the stored tag
and reports whether it equals the format's identifying tag. -/
def test_tag (tag : String) (ar : IArchive) : Except OzzError (Bool × IArchive) := do
  let (s, ar) ← readStr ar
  .ok (s == tag, ar)

/-- Modelled from the spec: `archive.read_string(len)` reads the name bytes
as one string (byte-level length bookkeeping abstracted). -/
def read_string (len : ℕ) (ar : IArchive) : Except OzzError (String × IArchive) := do
  let _ := len
  readStr ar

/-- Modelled from the spec: `archive.read_vec(count)` reads `count` values
of one type in sequence. -/
def readVec {α : Type} (rd : IArchive → Except OzzError (α × IArchive)) :
    ℕ → IArchive → Except OzzError (List α × IArchive)
  | 0, ar => .ok ([], ar)
  | n + 1, ar => do
    let (x, ar) ← rd ar
    let (xs, ar) ← readVec rd n ar
    .ok (x :: xs, ar)

/-- `<Float3Key as ArchiveReader>::read` (animation.rs lines 42-49). -/
def Float3Key.read (ar : IArchive) : Except OzzError (Float3Key × IArchive) := do
  let (r, ar) ← readF32 ar
  let (t, ar) ← readU16 ar
  let (v0, ar) ← readU16 ar
  let (v1, ar) ← readU16 ar
  let (v2, ar) ← readU16 ar
  .ok (⟨r, t, ![v0, v1, v2]⟩, ar)

/-- `<QuaternionKey as ArchiveReader>::read` (animation.rs lines 177-191):
reads the four wire fields separately and re-packs the bit field. -/
def QuaternionKey.read (ar : IArchive) : Except OzzError (QuaternionKey × IArchive) := do
  let (r, ar) ← readF32 ar
  let (t, ar) ← readU16 ar
  let (l, ar) ← readU8 ar
  let (s, ar) ← readU8 ar
  let bf := quatPackBits t l s
  let (v0, ar) ← readI16 ar
  let (v1, ar) ← readI16 ar
  let (v2, ar) ← readI16 ar
  .ok (⟨r, bf, ![v0, v1, v2]⟩, ar)

/-- The animation clip aggregate (animation.rs lines 193-202). -/
structure Animation where
  duration : ℚ
  num_tracks : ℕ
  name : String
  translations : List Float3Key
  rotations : List QuaternionKey
  scales : List Float3Key

/-- `ArchiveVersion for Animation` (lines 204-208). -/
def Animation.version : ℕ := 6

/-- `ArchiveTag for Animation` (lines 210-214). -/
def Animation.tag : String := "ozz-animation"

/-- `<Animation as ArchiveReader>::read` (animation.rs lines 216-248).
`num_tracks as usize` is modelled with `Int.toNat`. -/
def Animation.read (ar : IArchive) : Except OzzError (Animation × IArchive) := do
  let (tagOk, ar) ← test_tag Animation.tag ar
  if tagOk = false then
    throw OzzError.invalidTag
  let (version, ar) ← read_version ar
  if version ≠ Animation.version then
    throw OzzError.invalidVersion
  let (duration, ar) ← readF32 ar
  let (num_tracks, ar) ← readI32 ar
  let (name_len, ar) ← readI32 ar
  let (translation_count, ar) ← readI32 ar
  let (rotation_count, ar) ← readI32 ar
  let (scale_count, ar) ← readI32 ar
  let (name, ar) ← read_string name_len.toNat ar
  let (translations, ar) ← readVec Float3Key.read translation_count.toNat ar
  let (rotations, ar) ← readVec QuaternionKey.read rotation_count.toNat ar
  let (scales, ar) ← readVec Float3Key.read scale_count.toNat ar
  .ok (⟨duration, num_tracks.toNat, name, translations, rotations, scales⟩, ar)

theorem exc_bind_ok {ε α β : Type} (a : α) (f : α → Except ε β) :
    (Except.ok a >>= f) = f a := rfl

theorem exc_bind_error {ε α β : Type} (e : ε) (f : α → Except ε β) :
    ((Except.error e : Except ε α) >>= f) = .error e := rfl

theorem exc_throw_eq {ε α : Type} (e : ε) : (throw e : Except ε α) = .error e := rfl

/-- C6: the tag is tested first and a mismatch aborts with `InvalidTag`
regardless of everything after it; with a good tag, a version other than 6
aborts with `InvalidVersion` regardless of everything after it; a failed read
of a later field (here: a wrongly-typed duration) aborts the whole load with
the propagated stream error.  In all failure cases the result carries no
`Animation` value at all. -/
theorem C6_header_gate :
    (∀ (s : String) (rest : IArchive), s ≠ Animation.tag →
      Animation.read (Val.vStr s :: rest) = .error .invalidTag) ∧
    (∀ (v : ℕ) (rest : IArchive), v ≠ Animation.version →
      Animation.read (Val.vStr Animation.tag :: Val.vU32 v :: rest) =
        .error .invalidVersion) ∧
    (∀ rest : IArchive,
      Animation.read (Val.vStr Animation.tag :: Val.vU32 Animation.version ::
          Val.vU16 7 :: rest) = .error .streamErr) := by
  refine ⟨?_, ?_, ?_⟩
  · intro s rest hs
    have hb : (s == Animation.tag) = false := beq_false_of_ne hs
    simp [Animation.read, test_tag, readStr, hb, exc_bind_ok, exc_bind_error, exc_throw_eq]
  · intro v rest hv
    simp [Animation.read, test_tag, readStr, read_version, hv,
      exc_bind_ok, exc_bind_error, exc_throw_eq]
  · intro rest
    simp [Animation.read, test_tag, readStr, read_version, readF32,
      exc_bind_ok, exc_bind_error, exc_throw_eq]

/-- Witness for C6 on concrete streams. -/
theorem C6_header_gate_witness :
    Animation.read [Val.vStr "bad"] = .error .invalidTag ∧
    Animation.read [Val.vStr Animation.tag, Val.vU32 5] = .error .invalidVersion ∧
    Animation.read [Val.vStr Animation.tag, Val.vU32 6, Val.vU16 7] = .error .streamErr :=
  ⟨C6_header_gate.1 "bad" [] (by decide),
   C6_header_gate.2.1 5 [] (by decide),
   C6_header_gate.2.2 []⟩

/-- C3: for every valid (track, largest, sign) triple, packing it the way
deserialization does and reading it back through the accessors returns
exactly the original triple. -/
theorem C3_pack_roundtrip (r : ℚ) (v : Fin 3 → ℤ) (t l s : ℕ)
    (ht : t < 8192) (hl : l < 4) (hs : s < 2) :
    (QuaternionKey.mk r (quatPackBits t l s) v).track = t ∧
    (QuaternionKey.mk r (quatPackBits t l s) v).largest = l ∧
    (QuaternionKey.mk r (quatPackBits t l s) v).sign = s := by
  obtain ⟨h1, h2, h3⟩ := quatPack_accessors r v t l s
  rw [Nat.mod_eq_of_lt ht] at h1
  rw [Nat.mod_eq_of_lt hl] at h2
  rw [Nat.mod_eq_of_lt hs] at h3
  exact ⟨h1, h2, h3⟩

/-- Witness for C3 at the extreme valid triple (8191, 3, 1). -/
theorem C3_pack_roundtrip_witness :
    (QuaternionKey.mk 0 (quatPackBits 8191 3 1) ![0, 0, 0]).track = 8191 ∧
    (QuaternionKey.mk 0 (quatPackBits 8191 3 1) ![0, 0, 0]).largest = 3 ∧
    (QuaternionKey.mk 0 (quatPackBits 8191 3 1) ![0, 0, 0]).sign = 1 :=
  C3_pack_roundtrip 0 ![0, 0, 0] 8191 3 1 (by norm_num) (by norm_num) (by norm_num)

/-- C10: quaternion-key deserialization accepts every wire combination and
silently truncates out-of-range fields: the loaded key's accessors return
`track mod 8192`, `largest mod 4` and `sign mod 2`. -/
theorem C10_quat_read_truncates (t l s : ℕ)
    (ht : t < 65536) (hl : l < 256) (hs : s < 256)
    (r : ℚ) (v0 v1 v2 : ℤ) (rest : IArchive) :
    QuaternionKey.read (Val.vF32 r :: Val.vU16 t :: Val.vU8 l :: Val.vU8 s ::
        Val.vI16 v0 :: Val.vI16 v1 :: Val.vI16 v2 :: rest) =
      .ok (⟨r, quatPackBits t l s, ![v0, v1, v2]⟩, rest) ∧
    (QuaternionKey.mk r (quatPackBits t l s) ![v0, v1, v2]).track = t % 8192 ∧
    (QuaternionKey.mk r (quatPackBits t l s) ![v0, v1, v2]).largest = l % 4 ∧
    (QuaternionKey.mk r (quatPackBits t l s) ![v0, v1, v2]).sign = s % 2 := by
  refine ⟨?_, quatPack_accessors r ![v0, v1, v2] t l s⟩
  simp [QuaternionKey.read, readF32, readU16, readU8, readI16,
    exc_bind_ok, exc_bind_error, exc_throw_eq]

/-- Witness for C10 at the all-ones wire fields (65535, 255, 255). -/
theorem C10_quat_read_truncates_witness :
    QuaternionKey.read [Val.vF32 0, Val.vU16 65535, Val.vU8 255, Val.vU8 255,
        Val.vI16 0, Val.vI16 0, Val.vI16 0] =
      .ok (⟨0, quatPackBits 65535 255 255, ![0, 0, 0]⟩, []) ∧
    (QuaternionKey.mk 0 (quatPackBits 65535 255 255) ![0, 0, 0]).track = 65535 % 8192 ∧
    (QuaternionKey.mk 0 (quatPackBits 65535 255 255) ![0, 0, 0]).largest = 255 % 4 ∧
    (QuaternionKey.mk 0 (quatPackBits 65535 255 255) ![0, 0, 0]).sign = 255 % 2 :=
  C10_quat_read_truncates 65535 255 255 (by norm_num) (by norm_num) (by norm_num) 0 0 0 0 []

/-! ## SIMD math primitives used by the IK solver

All of these live in math.rs, which is not under src/; each is modelled from
the spec following the ozz SIMD conventions the solver relies on (x-suffixed
`_s` helpers splat their scalar result, `set_*`/`splat_*` move single lanes,
sign masks act on the IEEE sign bit).  Reals replace f32 lanes. -/

open scoped Classical

/-- Modelled from the spec: a 4-lane float register. -/
structure Fx4 where
  x : ℝ
  y : ℝ
  z : ℝ
  w : ℝ

noncomputable instance : Add Fx4 := ⟨fun a b => ⟨a.x + b.x, a.y + b.y, a.z + b.z, a.w + b.w⟩⟩
noncomputable instance : Sub Fx4 := ⟨fun a b => ⟨a.x - b.x, a.y - b.y, a.z - b.z, a.w - b.w⟩⟩
noncomputable instance : Mul Fx4 := ⟨fun a b => ⟨a.x * b.x, a.y * b.y, a.z * b.z, a.w * b.w⟩⟩
noncomputable instance : Neg Fx4 := ⟨fun a => ⟨-a.x, -a.y, -a.z, -a.w⟩⟩

/-- Modelled from the spec: lane broadcast. -/
def Fx4.splat (v : ℝ) : Fx4 := ⟨v, v, v, v⟩

noncomputable def ZERO : Fx4 := Fx4.splat 0
noncomputable def ONE : Fx4 := Fx4.splat 1
noncomputable def NEG_ONE : Fx4 := Fx4.splat (-1)
noncomputable def THREE : Fx4 := Fx4.splat 3
noncomputable def FRAC_1_2 : Fx4 := Fx4.splat (1 / 2)
noncomputable def QUAT_UNIT : Fx4 := ⟨0, 0, 0, 1⟩
noncomputable def Z_AXIS : Fx4 := ⟨0, 0, 1, 0⟩
noncomputable def Y_AXIS : Fx4 := ⟨0, 1, 0, 0⟩

/-- Modelled from the spec: broadcast of the x lane. -/
def fx4_splat_x (v : Fx4) : Fx4 := Fx4.splat v.x

/-- Modelled from the spec: broadcast of the y lane. -/
def fx4_splat_y (v : Fx4) : Fx4 := Fx4.splat v.y

/-- Modelled from the spec: broadcast of the z lane. -/
def fx4_splat_z (v : Fx4) : Fx4 := Fx4.splat v.z

/-- Modelled from the spec: replace the y lane with `b`'s x lane. -/
def fx4_set_y (a b : Fx4) : Fx4 := ⟨a.x, b.x, a.z, a.w⟩

/-- Modelled from the spec: replace the z lane with `b`'s x lane. -/
def fx4_set_z (a b : Fx4) : Fx4 := ⟨a.x, a.y, b.x, a.w⟩

/-- Modelled from the spec: replace the w lane with `b`'s x lane. -/
def fx4_set_w (a b : Fx4) : Fx4 := ⟨a.x, a.y, a.z, b.x⟩

/-- Modelled from the spec: lanewise square root. -/
noncomputable def Fx4.sqrt (v : Fx4) : Fx4 :=
  ⟨Real.sqrt v.x, Real.sqrt v.y, Real.sqrt v.z, Real.sqrt v.w⟩

/-- Modelled from the spec: lanewise reciprocal. -/
noncomputable def Fx4.recip (v : Fx4) : Fx4 := ⟨v.x⁻¹, v.y⁻¹, v.z⁻¹, v.w⁻¹⟩

/-- Modelled from the spec: lanewise absolute value. -/
noncomputable def Fx4.abs (v : Fx4) : Fx4 := ⟨|v.x|, |v.y|, |v.z|, |v.w|⟩

/-- Modelled from the spec: lanewise maximum (`fast_max`). -/
noncomputable def Fx4.fmax (a b : Fx4) : Fx4 :=
  ⟨max a.x b.x, max a.y b.y, max a.z b.z, max a.w b.w⟩

/-- Modelled from the spec: lanewise minimum (`fast_min`). -/
noncomputable def Fx4.fmin (a b : Fx4) : Fx4 :=
  ⟨min a.x b.x, min a.y b.y, min a.z b.z, min a.w b.w⟩

/-- Modelled from the spec: lanewise clamp of `v` between `lo` and `hi`. -/
noncomputable def fx4_clamp_or_min (v lo hi : Fx4) : Fx4 :=
  ⟨min (max lo.x v.x) hi.x, min (max lo.y v.y) hi.y,
   min (max lo.z v.z) hi.z, min (max lo.w v.w) hi.w⟩

/-- Modelled from the spec: lanewise arc cosine. -/
noncomputable def fx4_acos (v : Fx4) : Fx4 :=
  ⟨Real.arccos v.x, Real.arccos v.y, Real.arccos v.z, Real.arccos v.w⟩

/-- Modelled from the spec: `lerp(a, b, t) = a + t * (b - a)` lanewise. -/
noncomputable def fx4_lerp (a b t : Fx4) : Fx4 :=
  ⟨a.x + t.x * (b.x - a.x), a.y + t.y * (b.y - a.y),
   a.z + t.z * (b.z - a.z), a.w + t.w * (b.w - a.w)⟩

/-- Modelled from the spec: horizontal add of the four lanes. -/
noncomputable def fx4_reduce_add (v : Fx4) : ℝ := v.x + v.y + v.z + v.w

/-- Modelled from the spec: the sign mask of the x lane, as the factor the
mask applies through xor (`-1` when the sign bit is set, `1` otherwise). -/
noncomputable def fx4_sign (v : Fx4) : ℝ := if v.x < 0 then -1 else 1

/-- Modelled from the spec: xor with a sign mask: multiplies every lane by
the mask factor. -/
noncomputable def fx4_xor_sign (v : Fx4) (s : ℝ) : Fx4 :=
  ⟨s * v.x, s * v.y, s * v.z, s * v.w⟩

/-- Modelled from the spec: `cmp_gt(..).to_bitmask()` — bit `i` is set when
lane `i` of `a` is strictly greater than lane `i` of `b`. -/
noncomputable def fx4_cmp_gt_mask (a b : Fx4) : ℕ :=
  (if b.x < a.x then 1 else 0) + (if b.y < a.y then 2 else 0) +
    (if b.z < a.z then 4 else 0) + (if b.w < a.w then 8 else 0)

/-- Modelled from the spec: squared length of the xyz part, splat. -/
noncomputable def vec3_length2_s (v : Fx4) : Fx4 :=
  Fx4.splat (v.x * v.x + v.y * v.y + v.z * v.z)

/-- Modelled from the spec: dot product of the xyz parts, splat. -/
noncomputable def vec3_dot_s (a b : Fx4) : Fx4 :=
  Fx4.splat (a.x * b.x + a.y * b.y + a.z * b.z)

/-- Modelled from the spec: cross product of the xyz parts. -/
noncomputable def vec3_cross (a b : Fx4) : Fx4 :=
  ⟨a.y * b.z - a.z * b.y, a.z * b.x - a.x * b.z, a.x * b.y - a.y * b.x, 0⟩

/-- Modelled from the spec: squared-norm tolerance under which a vector
counts as normalized (ozz `kNormalizationToleranceSq`). -/
noncomputable def kNormalizationToleranceSq : ℝ := 1e-6

/-- Modelled from the spec: `vec3_is_normalized` — unit magnitude within the
numeric tolerance. -/
def vec3_is_normalized (v : Fx4) : Prop :=
  |v.x * v.x + v.y * v.y + v.z * v.z - 1| < kNormalizationToleranceSq

/-- Modelled from the spec: quaternion from rotation axis and angle (angle
taken from the x lane). -/
noncomputable def quat_from_axis_angle (axis angle : Fx4) : Fx4 :=
  ⟨axis.x * Real.sin (angle.x / 2), axis.y * Real.sin (angle.x / 2),
   axis.z * Real.sin (angle.x / 2), Real.cos (angle.x / 2)⟩

/-- Modelled from the spec: quaternion from a normalized rotation axis and
the cosine of the rotation angle. -/
noncomputable def quat_from_cos_angle (axis c : Fx4) : Fx4 :=
  ⟨axis.x * Real.sqrt (1 - (1 + c.x) / 2), axis.y * Real.sqrt (1 - (1 + c.x) / 2),
   axis.z * Real.sqrt (1 - (1 + c.x) / 2), Real.sqrt ((1 + c.x) / 2)⟩

/-- Modelled from the spec: normalization of a quaternion register. -/
noncomputable def quat_normalize (q : Fx4) : Fx4 :=
  let n := Real.sqrt (q.x * q.x + q.y * q.y + q.z * q.z + q.w * q.w)
  ⟨q.x / n, q.y / n, q.z / n, q.w / n⟩

/-- Modelled from the spec: shortest-arc quaternion sending direction `a`
onto direction `b`. -/
noncomputable def quat_from_vectors (a b : Fx4) : Fx4 :=
  let c := vec3_cross a b
  let w := Real.sqrt ((vec3_length2_s a).x * (vec3_length2_s b).x) + (vec3_dot_s a b).x
  quat_normalize ⟨c.x, c.y, c.z, w⟩

/-- Modelled from the spec: Hamilton product of two quaternions. -/
noncomputable def quat_mul (a b : Fx4) : Fx4 :=
  ⟨a.w * b.x + a.x * b.w + a.y * b.z - a.z * b.y,
   a.w * b.y - a.x * b.z + a.y * b.w + a.z * b.x,
   a.w * b.z + a.x * b.y - a.y * b.x + a.z * b.w,
   a.w * b.w - a.x * b.x - a.y * b.y - a.z * b.z⟩

/-- Modelled from the spec: rotation of the vector `v` by the quaternion
`q`, via `v + 2 w (q.xyz x v) + 2 (q.xyz x (q.xyz x v))`-style expansion. -/
noncomputable def quat_transform_vector (q v : Fx4) : Fx4 :=
  let t : Fx4 := ⟨2 * (q.y * v.z - q.z * v.y), 2 * (q.z * v.x - q.x * v.z),
                  2 * (q.x * v.y - q.y * v.x), 0⟩
  ⟨v.x + q.w * t.x + (q.y * t.z - q.z * t.y),
   v.y + q.w * t.y + (q.z * t.x - q.x * t.z),
   v.z + q.w * t.z + (q.x * t.y - q.y * t.x), 0⟩

/-- Modelled from the spec: flip a quaternion to its non-negative-w
representative. -/
noncomputable def quat_positive_w (q : Fx4) : Fx4 :=
  if q.w < 0 then ⟨-q.x, -q.y, -q.z, -q.w⟩ else q

/-- Modelled from the spec: a column-major affine 4x4 matrix. -/
structure AosMat4 where
  cols : Fin 4 → Fx4

def Fx4.get (v : Fx4) : Fin 4 → ℝ := ![v.x, v.y, v.z, v.w]

def AosMat4.toMatrix (m : AosMat4) : Matrix (Fin 4) (Fin 4) ℝ :=
  fun i j => (m.cols j).get i

def AosMat4.ofMatrix (A : Matrix (Fin 4) (Fin 4) ℝ) : AosMat4 :=
  ⟨fun j => ⟨A 0 j, A 1 j, A 2 j, A 3 j⟩⟩

/-- Modelled from the spec: `AosMat4::identity`. -/
noncomputable def AosMat4.identity : AosMat4 := AosMat4.ofMatrix 1

/-- Modelled from the spec: matrix inversion (`AosMat4::invert`); total, the
mathematical inverse for invertible inputs. -/
noncomputable def AosMat4.invert (m : AosMat4) : AosMat4 :=
  AosMat4.ofMatrix (m.toMatrix)⁻¹

/-- Modelled from the spec: transform a point (homogeneous w = 1). -/
noncomputable def AosMat4.transform_point (m : AosMat4) (v : Fx4) : Fx4 :=
  let r := m.toMatrix.mulVec ![v.x, v.y, v.z, 1]
  ⟨r 0, r 1, r 2, r 3⟩

/-- Modelled from the spec: transform a direction (homogeneous w = 0). -/
noncomputable def AosMat4.transform_vector (m : AosMat4) (v : Fx4) : Fx4 :=
  let r := m.toMatrix.mulVec ![v.x, v.y, v.z, 0]
  ⟨r 0, r 1, r 2, r 3⟩

/-! ## IKTwoBoneJob (ik_two_bone_job.rs)

The job is modelled as an immutable record; `run` returns the post-call
record paired with the Result, so "no mutation on failure" is the statement
that the returned record equals the input.  `reached` is a `Prop`. -/

/-- The two-bone IK job (ik_two_bone_job.rs lines 62-96). -/
structure IKTwoBoneJob where
  target : Fx4
  mid_axis : Fx4
  pole_vector : Fx4
  twist_angle : ℝ
  soften : ℝ
  weight : ℝ
  start_joint : AosMat4
  mid_joint : AosMat4
  end_joint : AosMat4
  start_joint_correction : Fx4
  mid_joint_correction : Fx4
  reached : Prop

/-- `Default for IKTwoBoneJob` (lines 79-96). -/
noncomputable def IKTwoBoneJob.default : IKTwoBoneJob :=
  { target := ZERO
    mid_axis := Z_AXIS
    pole_vector := Y_AXIS
    twist_angle := 0
    soften := 1
    weight := 1
    start_joint := AosMat4.identity
    mid_joint := AosMat4.identity
    end_joint := AosMat4.identity
    start_joint_correction := QUAT_UNIT
    mid_joint_correction := QUAT_UNIT
    reached := False }

/-- Constants precomputed by `IKConstantSetup::new` (lines 13-49). -/
structure IKConstantSetup where
  inv_start_joint : AosMat4
  start_mid_ms : Fx4
  mid_end_ms : Fx4
  start_mid_ss : Fx4
  start_mid_ss_len2 : Fx4
  mid_end_ss_len2 : Fx4
  start_end_ss_len2 : Fx4

/-- `IKConstantSetup::new` (lines 24-48). -/
noncomputable def IKConstantSetup.new (job : IKTwoBoneJob) : IKConstantSetup :=
  let inv_start_joint := job.start_joint.invert
  let inv_mid_joint := job.mid_joint.invert
  let start_ms := inv_mid_joint.transform_point (job.start_joint.cols 3)
  let end_ms := inv_mid_joint.transform_point (job.end_joint.cols 3)
  let mid_ss := inv_start_joint.transform_point (job.mid_joint.cols 3)
  let end_ss := inv_start_joint.transform_point (job.end_joint.cols 3)
  let mid_end_ss := end_ss - mid_ss
  let start_end_ss := end_ss
  let start_mid_ss := mid_ss
  { inv_start_joint := inv_start_joint
    start_mid_ms := -start_ms
    mid_end_ms := end_ms
    start_mid_ss := start_mid_ss
    start_mid_ss_len2 := vec3_length2_s start_mid_ss
    mid_end_ss_len2 := vec3_length2_s mid_end_ss
    start_end_ss_len2 := vec3_length2_s start_end_ss }

/-- `IKTwoBoneJob::validate` (lines 300-304). -/
def IKTwoBoneJob.validate (j : IKTwoBoneJob) : Prop := vec3_is_normalized j.mid_axis

/-- `IKTwoBoneJob::soften_target` (lines 330-373); returns
`(lreached, start_target_ss, start_target_ss_len2)`. -/
noncomputable def IKTwoBoneJob.soften_target (j : IKTwoBoneJob) (setup : IKConstantSetup) :
    Prop × Fx4 × Fx4 :=
  let start_target_original_ss := setup.inv_start_joint.transform_point j.target
  let start_target_original_ss_len2 := vec3_length2_s start_target_original_ss
  let lengths := (fx4_set_z (fx4_set_y setup.start_mid_ss_len2 setup.mid_end_ss_len2)
    start_target_original_ss_len2).sqrt
  let start_mid_ss_len := lengths
  let mid_end_ss_len := fx4_splat_y lengths
  let start_target_original_ss_len := fx4_splat_z lengths
  let bone_len_diff_abs := (start_mid_ss_len - mid_end_ss_len).abs
  let bones_chain_len := start_mid_ss_len + mid_end_ss_len
  let da := bones_chain_len * fx4_clamp_or_min ⟨j.soften, 0, 0, 0⟩ ZERO ONE
  let ds := bones_chain_len - da
  let left := fx4_set_w start_target_original_ss_len ds
  let right := fx4_set_z da bone_len_diff_abs
  let comp_mask := fx4_cmp_gt_mask left right
  -- the two mutable locals `start_target_ss` / `start_target_ss_len2`
  let stpair : Fx4 × Fx4 :=
    if comp_mask &&& 0xb = 0xb then
      let alpha := (start_target_original_ss_len - da) * ds.recip
      let op := fx4_set_y THREE (alpha + THREE)
      let op2 := op * op
      let op4 := op2 * op2
      let ratio := op4 * (fx4_splat_y op4).recip
      let start_target_ss_len := da + ds - ds * ratio
      (start_target_original_ss *
        fx4_splat_x (start_target_ss_len * start_target_original_ss_len.recip),
        start_target_ss_len * start_target_ss_len)
    else
      (start_target_original_ss, start_target_original_ss_len2)
  (comp_mask &&& 0x5 = 0x4, stpair.1, stpair.2)

/-- `IKTwoBoneJob::compute_mid_joint` (lines 375-393). -/
noncomputable def IKTwoBoneJob.compute_mid_joint (j : IKTwoBoneJob)
    (setup : IKConstantSetup) (start_target_ss_len2 : Fx4) : Fx4 :=
  let start_mid_end_sum_ss_len2 := setup.start_mid_ss_len2 + setup.mid_end_ss_len2
  let start_mid_end_ss_half_rlen :=
    fx4_splat_x (FRAC_1_2 * ((setup.start_mid_ss_len2 * setup.mid_end_ss_len2).sqrt).recip)
  let mid_cos_angles_unclamped :=
    (fx4_splat_x start_mid_end_sum_ss_len2 -
      fx4_set_y start_target_ss_len2 setup.start_end_ss_len2) * start_mid_end_ss_half_rlen
  let mid_cos_angles := fx4_clamp_or_min mid_cos_angles_unclamped NEG_ONE ONE
  let mid_corrected_angle := fx4_acos mid_cos_angles
  let bent_side_ref := vec3_cross setup.start_mid_ms j.mid_axis
  let bent_side_flip := fx4_sign (vec3_dot_s bent_side_ref setup.mid_end_ms)
  let mid_initial_angle := fx4_xor_sign (fx4_splat_y mid_corrected_angle) bent_side_flip
  let mid_angles_diff := mid_corrected_angle - mid_initial_angle
  quat_from_axis_angle j.mid_axis mid_angles_diff

/-- `IKTwoBoneJob::compute_start_joint` (lines 395-454). -/
noncomputable def IKTwoBoneJob.compute_start_joint (j : IKTwoBoneJob)
    (setup : IKConstantSetup) (mid_rot_ms start_target_ss start_target_ss_len2 : Fx4) :
    Fx4 :=
  let pole_ss := setup.inv_start_joint.transform_vector j.pole_vector
  let mid_end_ss_final := setup.inv_start_joint.transform_vector
    (j.mid_joint.transform_vector (quat_transform_vector mid_rot_ms setup.mid_end_ms))
  let start_end_ss_final := setup.start_mid_ss + mid_end_ss_final
  let end_to_target_rot_ss := quat_from_vectors start_end_ss_final start_target_ss
  if 0 < start_target_ss_len2.x then
    let ref_plane_normal_ss := vec3_cross start_target_ss pole_ss
    let ref_plane_normal_ss_len2 := vec3_length2_s ref_plane_normal_ss
    let mid_axis_ss := setup.inv_start_joint.transform_vector
      (j.mid_joint.transform_vector j.mid_axis)
    let joint_plane_normal_ss := quat_transform_vector end_to_target_rot_ss mid_axis_ss
    let joint_plane_normal_ss_len2 := vec3_length2_s joint_plane_normal_ss
    let rsqrts := ((fx4_set_z (fx4_set_y start_target_ss_len2 ref_plane_normal_ss_len2)
      joint_plane_normal_ss_len2).sqrt).recip
    let rotate_plane_cos_angle := vec3_dot_s (ref_plane_normal_ss * fx4_splat_y rsqrts)
      (joint_plane_normal_ss * fx4_splat_z rsqrts)
    let rotate_plane_axis_ss := start_target_ss * fx4_splat_x rsqrts
    let start_axis_flip := fx4_sign (fx4_splat_x (vec3_dot_s joint_plane_normal_ss pole_ss))
    let rotate_plane_axis_flipped_ss := fx4_xor_sign rotate_plane_axis_ss start_axis_flip
    let rotate_plane_ss := quat_from_cos_angle rotate_plane_axis_flipped_ss
      (Fx4.fmin (Fx4.fmax rotate_plane_cos_angle NEG_ONE) ONE)
    if j.twist_angle ≠ 0 then
      quat_mul (quat_mul (quat_from_axis_angle rotate_plane_axis_ss
        (Fx4.splat j.twist_angle)) rotate_plane_ss) end_to_target_rot_ss
    else
      quat_mul rotate_plane_ss end_to_target_rot_ss
  else
    end_to_target_rot_ss

/-- `IKTwoBoneJob::weight_output` (lines 456-481). -/
noncomputable def IKTwoBoneJob.weight_output (j : IKTwoBoneJob)
    (start_rot mid_rot : Fx4) : IKTwoBoneJob :=
  let start_rot_fu := quat_positive_w start_rot
  let mid_rot_fu := quat_positive_w mid_rot
  if j.weight < 1 then
    let simd_weight := Fx4.fmax (Fx4.splat j.weight) ZERO
    let start_lerp := fx4_lerp QUAT_UNIT start_rot_fu simd_weight
    let mid_lerp := fx4_lerp QUAT_UNIT mid_rot_fu simd_weight
    let rsqrts := (Fx4.mk (fx4_reduce_add (start_lerp * start_lerp))
      (fx4_reduce_add (mid_lerp * mid_lerp)) 0 0).sqrt.recip
    { j with
        start_joint_correction := start_lerp * fx4_splat_x rsqrts
        mid_joint_correction := mid_lerp * fx4_splat_y rsqrts }
  else
    { j with
        start_joint_correction := start_rot_fu
        mid_joint_correction := mid_rot_fu }

/-- `IKTwoBoneJob::run` (lines 308-328): validation gate, weight shortcut,
then the full solve.  The state after the call is the first component. -/
noncomputable def IKTwoBoneJob.run (j : IKTwoBoneJob) : IKTwoBoneJob × Except OzzError Unit :=
  if ¬ j.validate then
    (j, .error .invalidJob)
  else if j.weight ≤ 0 then
    ({ j with
        start_joint_correction := QUAT_UNIT
        mid_joint_correction := QUAT_UNIT
        reached := False }, .ok ())
  else
    let setup := IKConstantSetup.new j
    let st := j.soften_target setup
    let j1 := { j with reached := st.1 ∧ 1 ≤ j.weight }
    let mid_rot_ms := j.compute_mid_joint setup st.2.2
    let start_rot_ss := j.compute_start_joint setup mid_rot_ms st.2.1 st.2.2
    (j1.weight_output start_rot_ss mid_rot_ms, .ok ())

theorem IKTwoBoneJob.weight_output_reached (j : IKTwoBoneJob) (sr mr : Fx4) :
    (j.weight_output sr mr).reached = j.reached := by
  unfold IKTwoBoneJob.weight_output
  split <;> rfl

/-- C7: `run` fails with `InvalidJob` exactly when `mid_axis` is not unit
length within the numeric tolerance, and in that case the job (all inputs
and all three outputs) is returned untouched. -/
theorem C7_run_invalid (j : IKTwoBoneJob) :
    ((j.run).2 = .error .invalidJob ↔ ¬ j.validate) ∧
    (¬ j.validate → j.run = (j, .error .invalidJob)) := by
  constructor
  · constructor
    · intro h
      by_contra hv
      unfold IKTwoBoneJob.run at h
      rw [if_neg (by simpa using hv)] at h
      split at h <;> simp at h
    · intro hv
      unfold IKTwoBoneJob.run
      rw [if_pos hv]
  · intro hv
    unfold IKTwoBoneJob.run
    rw [if_pos hv]

/-- Witness for C7: a job whose `mid_axis` is (1,2,3) fails validation, and
`run` returns it unchanged with the `InvalidJob` error. -/
theorem C7_run_invalid_witness :
    ({ IKTwoBoneJob.default with mid_axis := ⟨1, 2, 3, 0⟩ } : IKTwoBoneJob).run =
      ({ IKTwoBoneJob.default with mid_axis := ⟨1, 2, 3, 0⟩ }, .error .invalidJob) := by
  have hv : ¬ ({ IKTwoBoneJob.default with mid_axis := ⟨1, 2, 3, 0⟩ } : IKTwoBoneJob).validate := by
    unfold IKTwoBoneJob.validate vec3_is_normalized kNormalizationToleranceSq
    norm_num
  exact (C7_run_invalid _).2 hv

/-- C8: for every job that passes validation and has weight ≤ 0, `run`
sets both corrections to the identity quaternion and `reached` to false and
succeeds, leaving every input field unchanged. -/
theorem C8_run_weight_shortcut (j : IKTwoBoneJob) (hv : j.validate) (hw : j.weight ≤ 0) :
    j.run = ({ j with
        start_joint_correction := QUAT_UNIT
        mid_joint_correction := QUAT_UNIT
        reached := False }, .ok ()) := by
  unfold IKTwoBoneJob.run
  rw [if_neg (by simpa using hv), if_pos hw]

/-- Witness for C8: the default job (unit `mid_axis` = +Z) with weight 0. -/
theorem C8_run_weight_shortcut_witness :
    ({ IKTwoBoneJob.default with weight := 0 } : IKTwoBoneJob).run =
      ({ IKTwoBoneJob.default with
          weight := 0
          start_joint_correction := QUAT_UNIT
          mid_joint_correction := QUAT_UNIT
          reached := False }, .ok ()) := by
  have hv : ({ IKTwoBoneJob.default with weight := 0 } : IKTwoBoneJob).validate := by
    unfold IKTwoBoneJob.validate vec3_is_normalized kNormalizationToleranceSq
    show |(0 : ℝ) * 0 + 0 * 0 + 1 * 1 - 1| < 1e-6
    norm_num
  exact C8_run_weight_shortcut _ hv (by norm_num)

/-! ## Lane bookkeeping lemmas for the soften-target analysis -/

@[simp] theorem Fx4.add_x (a b : Fx4) : (a + b).x = a.x + b.x := rfl
@[simp] theorem Fx4.add_y (a b : Fx4) : (a + b).y = a.y + b.y := rfl
@[simp] theorem Fx4.add_z (a b : Fx4) : (a + b).z = a.z + b.z := rfl
@[simp] theorem Fx4.add_w (a b : Fx4) : (a + b).w = a.w + b.w := rfl
@[simp] theorem Fx4.sub_x (a b : Fx4) : (a - b).x = a.x - b.x := rfl
@[simp] theorem Fx4.sub_y (a b : Fx4) : (a - b).y = a.y - b.y := rfl
@[simp] theorem Fx4.sub_z (a b : Fx4) : (a - b).z = a.z - b.z := rfl
@[simp] theorem Fx4.sub_w (a b : Fx4) : (a - b).w = a.w - b.w := rfl
@[simp] theorem Fx4.mul_x (a b : Fx4) : (a * b).x = a.x * b.x := rfl
@[simp] theorem Fx4.mul_y (a b : Fx4) : (a * b).y = a.y * b.y := rfl
@[simp] theorem Fx4.mul_z (a b : Fx4) : (a * b).z = a.z * b.z := rfl
@[simp] theorem Fx4.mul_w (a b : Fx4) : (a * b).w = a.w * b.w := rfl
@[simp] theorem Fx4.splat_x' (v : ℝ) : (Fx4.splat v).x = v := rfl
@[simp] theorem Fx4.splat_y' (v : ℝ) : (Fx4.splat v).y = v := rfl
@[simp] theorem Fx4.splat_z' (v : ℝ) : (Fx4.splat v).z = v := rfl
@[simp] theorem Fx4.splat_w' (v : ℝ) : (Fx4.splat v).w = v := rfl
@[simp] theorem Fx4.sqrt_x (v : Fx4) : v.sqrt.x = Real.sqrt v.x := rfl
@[simp] theorem Fx4.sqrt_y (v : Fx4) : v.sqrt.y = Real.sqrt v.y := rfl
@[simp] theorem Fx4.sqrt_z (v : Fx4) : v.sqrt.z = Real.sqrt v.z := rfl
@[simp] theorem Fx4.sqrt_w (v : Fx4) : v.sqrt.w = Real.sqrt v.w := rfl
@[simp] theorem Fx4.recip_x (v : Fx4) : v.recip.x = v.x⁻¹ := rfl
@[simp] theorem Fx4.abs_x (v : Fx4) : v.abs.x = |v.x| := rfl
@[simp] theorem Fx4.abs_z (v : Fx4) : v.abs.z = |v.z| := rfl
@[simp] theorem fx4_splat_x_x (v : Fx4) : (fx4_splat_x v).x = v.x := rfl
@[simp] theorem fx4_splat_x_y (v : Fx4) : (fx4_splat_x v).y = v.x := rfl
@[simp] theorem fx4_splat_x_z (v : Fx4) : (fx4_splat_x v).z = v.x := rfl
@[simp] theorem fx4_splat_x_w (v : Fx4) : (fx4_splat_x v).w = v.x := rfl
@[simp] theorem fx4_splat_y_x (v : Fx4) : (fx4_splat_y v).x = v.y := rfl
@[simp] theorem fx4_splat_y_y (v : Fx4) : (fx4_splat_y v).y = v.y := rfl
@[simp] theorem fx4_splat_y_z (v : Fx4) : (fx4_splat_y v).z = v.y := rfl
@[simp] theorem fx4_splat_y_w (v : Fx4) : (fx4_splat_y v).w = v.y := rfl
@[simp] theorem fx4_splat_z_x (v : Fx4) : (fx4_splat_z v).x = v.z := rfl
@[simp] theorem fx4_splat_z_y (v : Fx4) : (fx4_splat_z v).y = v.z := rfl
@[simp] theorem fx4_splat_z_z (v : Fx4) : (fx4_splat_z v).z = v.z := rfl
@[simp] theorem fx4_splat_z_w (v : Fx4) : (fx4_splat_z v).w = v.z := rfl
@[simp] theorem fx4_set_y_x (a b : Fx4) : (fx4_set_y a b).x = a.x := rfl
@[simp] theorem fx4_set_y_y (a b : Fx4) : (fx4_set_y a b).y = b.x := rfl
@[simp] theorem fx4_set_y_z (a b : Fx4) : (fx4_set_y a b).z = a.z := rfl
@[simp] theorem fx4_set_y_w (a b : Fx4) : (fx4_set_y a b).w = a.w := rfl
@[simp] theorem fx4_set_z_x (a b : Fx4) : (fx4_set_z a b).x = a.x := rfl
@[simp] theorem fx4_set_z_y (a b : Fx4) : (fx4_set_z a b).y = a.y := rfl
@[simp] theorem fx4_set_z_z (a b : Fx4) : (fx4_set_z a b).z = b.x := rfl
@[simp] theorem fx4_set_z_w (a b : Fx4) : (fx4_set_z a b).w = a.w := rfl
@[simp] theorem fx4_set_w_x (a b : Fx4) : (fx4_set_w a b).x = a.x := rfl
@[simp] theorem fx4_set_w_y (a b : Fx4) : (fx4_set_w a b).y = a.y := rfl
@[simp] theorem fx4_set_w_z (a b : Fx4) : (fx4_set_w a b).z = a.z := rfl
@[simp] theorem fx4_set_w_w (a b : Fx4) : (fx4_set_w a b).w = b.x := rfl
@[simp] theorem fx4_clamp_x (v lo hi : Fx4) :
    (fx4_clamp_or_min v lo hi).x = min (max lo.x v.x) hi.x := rfl
@[simp] theorem fx4_clamp_y (v lo hi : Fx4) :
    (fx4_clamp_or_min v lo hi).y = min (max lo.y v.y) hi.y := rfl
@[simp] theorem fx4_clamp_z (v lo hi : Fx4) :
    (fx4_clamp_or_min v lo hi).z = min (max lo.z v.z) hi.z := rfl
@[simp] theorem fx4_clamp_w (v lo hi : Fx4) :
    (fx4_clamp_or_min v lo hi).w = min (max lo.w v.w) hi.w := rfl
@[simp] theorem vec3_length2_s_x (v : Fx4) :
    (vec3_length2_s v).x = v.x * v.x + v.y * v.y + v.z * v.z := rfl
@[simp] theorem ZERO_x : ZERO.x = 0 := rfl
@[simp] theorem ZERO_y : ZERO.y = 0 := rfl
@[simp] theorem ZERO_z : ZERO.z = 0 := rfl
@[simp] theorem ZERO_w : ZERO.w = 0 := rfl
@[simp] theorem ONE_x : ONE.x = 1 := rfl
@[simp] theorem ONE_y : ONE.y = 1 := rfl
@[simp] theorem ONE_z : ONE.z = 1 := rfl
@[simp] theorem ONE_w : ONE.w = 1 := rfl
@[simp] theorem THREE_x : THREE.x = 3 := rfl
@[simp] theorem THREE_y : THREE.y = 3 := rfl

/-- Bit 0 and bits of the comparison mask against `0xb` (x, y, w lanes). -/
theorem mask_and_eleven (px py pz pw : Prop)
    [Decidable px] [Decidable py] [Decidable pz] [Decidable pw] :
    (((if px then 1 else 0) + (if py then 2 else 0) + (if pz then 4 else 0) +
      (if pw then 8 else 0) : ℕ) &&& 0xb = 0xb) ↔ (px ∧ py ∧ pw) := by
  by_cases hx : px <;> by_cases hy : py <;> by_cases hz : pz <;> by_cases hw : pw <;>
    simp [hx, hy, hz, hw] <;> decide

/-- The reached test `(mask & 0x5) == 0x4`: z lane set, x lane clear. -/
theorem mask_and_five (px py pz pw : Prop)
    [Decidable px] [Decidable py] [Decidable pz] [Decidable pw] :
    (((if px then 1 else 0) + (if py then 2 else 0) + (if pz then 4 else 0) +
      (if pw then 8 else 0) : ℕ) &&& 0x5 = 0x4) ↔ (pz ∧ ¬ px) := by
  by_cases hx : px <;> by_cases hy : py <;> by_cases hz : pz <;> by_cases hw : pw <;>
    simp [hx, hy, hz, hw] <;> decide

theorem fx4_mask_and_eleven (a b : Fx4) :
    (fx4_cmp_gt_mask a b &&& 0xb = 0xb) ↔ (b.x < a.x ∧ b.y < a.y ∧ b.w < a.w) := by
  unfold fx4_cmp_gt_mask
  exact mask_and_eleven _ _ _ _

theorem fx4_mask_and_five (a b : Fx4) :
    (fx4_cmp_gt_mask a b &&& 0x5 = 0x4) ↔ (b.z < a.z ∧ ¬ b.x < a.x) := by
  unfold fx4_cmp_gt_mask
  exact mask_and_five _ _ _ _

/-! ## Named scalar quantities of the soften step

These name the x-lane scalars actually compared by `soften_target`:
the two bone lengths, the pre-soften start-to-target distance, the soften
reach `da` and the soften range `ds`. -/

/-- Length of the start-mid bone, in start space. -/
noncomputable def IKTwoBoneJob.boneLen1 (j : IKTwoBoneJob) : ℝ :=
  Real.sqrt (IKConstantSetup.new j).start_mid_ss_len2.x

/-- Length of the mid-end bone, in start space. -/
noncomputable def IKTwoBoneJob.boneLen2 (j : IKTwoBoneJob) : ℝ :=
  Real.sqrt (IKConstantSetup.new j).mid_end_ss_len2.x

/-- Pre-soften distance from the start joint to the target, in start space. -/
noncomputable def IKTwoBoneJob.targetDist (j : IKTwoBoneJob) : ℝ :=
  Real.sqrt (vec3_length2_s ((IKConstantSetup.new j).inv_start_joint.transform_point
    j.target)).x

/-- `da = chain_len * clamp(soften, 0, 1)`. -/
noncomputable def IKTwoBoneJob.softenDa (j : IKTwoBoneJob) : ℝ :=
  (j.boneLen1 + j.boneLen2) * min (max 0 j.soften) 1

/-- `ds = chain_len - da`. -/
noncomputable def IKTwoBoneJob.softenDs (j : IKTwoBoneJob) : ℝ :=
  (j.boneLen1 + j.boneLen2) - j.softenDa

/-- The quartic-falloff softened length, written as the spec states it:
`da + ds - ds * (3^4 / (3 + alpha)^4)` with `alpha = (Lt - da) / ds`. -/
noncomputable def IKTwoBoneJob.softLen (j : IKTwoBoneJob) : ℝ :=
  j.softenDa + j.softenDs -
    j.softenDs * (3 ^ 4 / (3 + (j.targetDist - j.softenDa) / j.softenDs) ^ 4)

/-- The boolean returned by `soften_target` — `(comp_mask & 0x5) == 0x4` —
holds exactly when the pre-soften distance exceeds `|L1 - L2|` (z lane) and
does not exceed `da` (x lane clear). -/
theorem soften_target_fst_iff (j : IKTwoBoneJob) :
    (j.soften_target (IKConstantSetup.new j)).1 ↔
      (|j.boneLen1 - j.boneLen2| < j.targetDist ∧ ¬ j.softenDa < j.targetDist) := by
  simp only [IKTwoBoneJob.soften_target]
  rw [fx4_mask_and_five]
  unfold IKTwoBoneJob.targetDist IKTwoBoneJob.softenDa
    IKTwoBoneJob.boneLen1 IKTwoBoneJob.boneLen2
  simp

@[simp] theorem min_zero_one_real : min (0 : ℝ) 1 = 0 := by norm_num

@[simp] theorem max_zero_zero_real : max (0 : ℝ) 0 = 0 := by norm_num

theorem soften_scalar_eq (d s r : ℝ) (hs : 0 < s) (hd : d < r) :
    (d + s - s * (3 * 3 * (3 * 3) * (((r - d) * s⁻¹ + 3) * ((r - d) * s⁻¹ + 3) *
        (((r - d) * s⁻¹ + 3) * ((r - d) * s⁻¹ + 3)))⁻¹)) *
      (d + s - s * (3 * 3 * (3 * 3) * (((r - d) * s⁻¹ + 3) * ((r - d) * s⁻¹ + 3) *
        (((r - d) * s⁻¹ + 3) * ((r - d) * s⁻¹ + 3)))⁻¹)) =
    (d + s - s * (3 ^ 4 / (3 + (r - d) / s) ^ 4)) ^ 2 := by
  have hAB : (3 : ℝ) * 3 * (3 * 3) * (((r - d) * s⁻¹ + 3) * ((r - d) * s⁻¹ + 3) *
      (((r - d) * s⁻¹ + 3) * ((r - d) * s⁻¹ + 3)))⁻¹ = 3 ^ 4 / (3 + (r - d) / s) ^ 4 := by
    rw [div_eq_mul_inv ((3 : ℝ) ^ 4), div_eq_mul_inv (r - d) s]
    congr 1
    · norm_num
    · congr 1
      ring
  rw [hAB, pow_two]

/-- When the code's softening mask fires (x, y, w lanes), the squared
length handed to the solver is the square of the code's softened length. -/
theorem soften_target_len2_engaged (j : IKTwoBoneJob)
    (hx : j.softenDa < j.targetDist) (hy : 0 < j.targetDist) (hw : 0 < j.softenDs) :
    (j.soften_target (IKConstantSetup.new j)).2.2.x = j.softLen ^ 2 := by
  simp only [IKTwoBoneJob.targetDist, IKTwoBoneJob.softenDa, IKTwoBoneJob.softenDs,
    IKTwoBoneJob.boneLen1, IKTwoBoneJob.boneLen2] at hx hy hw
  simp only [IKTwoBoneJob.soften_target]
  split
  case isTrue hc =>
    simp only [IKTwoBoneJob.softLen, IKTwoBoneJob.targetDist, IKTwoBoneJob.softenDa,
      IKTwoBoneJob.softenDs, IKTwoBoneJob.boneLen1, IKTwoBoneJob.boneLen2,
      Fx4.add_x, Fx4.add_y, Fx4.add_z, Fx4.add_w, Fx4.sub_x, Fx4.sub_y, Fx4.sub_z,
      Fx4.sub_w, Fx4.mul_x, Fx4.mul_y, Fx4.mul_z, Fx4.mul_w, Fx4.sqrt_x, Fx4.sqrt_y,
      Fx4.sqrt_z, Fx4.sqrt_w, Fx4.recip_x, Fx4.abs_x, Fx4.abs_z,
      fx4_splat_x_x, fx4_splat_x_y, fx4_splat_x_z, fx4_splat_x_w,
      fx4_splat_y_x, fx4_splat_y_y, fx4_splat_y_z, fx4_splat_y_w,
      fx4_splat_z_x, fx4_splat_z_y, fx4_splat_z_z, fx4_splat_z_w,
      fx4_set_y_x, fx4_set_y_y, fx4_set_y_z, fx4_set_y_w,
      fx4_set_z_x, fx4_set_z_y, fx4_set_z_z, fx4_set_z_w,
      fx4_set_w_x, fx4_set_w_y, fx4_set_w_z, fx4_set_w_w,
      fx4_clamp_x, fx4_clamp_y, fx4_clamp_z, fx4_clamp_w,
      ZERO_x, ZERO_y, ZERO_z, ZERO_w, ONE_x, ONE_y, ONE_z, ONE_w, THREE_x, THREE_y,
      max_zero_zero_real, min_zero_one_real, mul_zero]
    exact soften_scalar_eq _ _ _ hw hx
  case isFalse hc =>
    exfalso
    rw [fx4_mask_and_eleven] at hc
    simp only [Fx4.add_x, Fx4.add_y, Fx4.add_z, Fx4.add_w, Fx4.sub_x, Fx4.sub_y,
      Fx4.sub_z, Fx4.sub_w, Fx4.mul_x, Fx4.mul_y, Fx4.mul_z, Fx4.mul_w, Fx4.sqrt_x,
      Fx4.sqrt_y, Fx4.sqrt_z, Fx4.sqrt_w, Fx4.recip_x, Fx4.abs_x, Fx4.abs_z,
      fx4_splat_x_x, fx4_splat_x_y, fx4_splat_x_z, fx4_splat_x_w,
      fx4_splat_y_x, fx4_splat_y_y, fx4_splat_y_z, fx4_splat_y_w,
      fx4_splat_z_x, fx4_splat_z_y, fx4_splat_z_z, fx4_splat_z_w,
      fx4_set_y_x, fx4_set_y_y, fx4_set_y_z, fx4_set_y_w,
      fx4_set_z_x, fx4_set_z_y, fx4_set_z_z, fx4_set_z_w,
      fx4_set_w_x, fx4_set_w_y, fx4_set_w_z, fx4_set_w_w,
      fx4_clamp_x, fx4_clamp_y, fx4_clamp_z, fx4_clamp_w,
      ZERO_x, ZERO_y, ZERO_z, ZERO_w, ONE_x, ONE_y, ONE_z, ONE_w, THREE_x, THREE_y,
      max_zero_zero_real, min_zero_one_real, mul_zero] at hc
    push_neg at hc
    linarith [hc hx hy]

/-- When the code's softening mask does not fire, the target vector and its
squared length are passed through unchanged. -/
theorem soften_target_pair_not_engaged (j : IKTwoBoneJob)
    (h : ¬ (j.softenDa < j.targetDist ∧ 0 < j.targetDist ∧ 0 < j.softenDs)) :
    (j.soften_target (IKConstantSetup.new j)).2.1 =
        (IKConstantSetup.new j).inv_start_joint.transform_point j.target ∧
      (j.soften_target (IKConstantSetup.new j)).2.2 =
        vec3_length2_s ((IKConstantSetup.new j).inv_start_joint.transform_point j.target) := by
  simp only [IKTwoBoneJob.targetDist, IKTwoBoneJob.softenDa, IKTwoBoneJob.softenDs,
    IKTwoBoneJob.boneLen1, IKTwoBoneJob.boneLen2] at h
  simp only [IKTwoBoneJob.soften_target]
  split
  case isTrue hc =>
    exfalso
    rw [fx4_mask_and_eleven] at hc
    simp only [Fx4.add_x, Fx4.add_y, Fx4.add_z, Fx4.add_w, Fx4.sub_x, Fx4.sub_y,
      Fx4.sub_z, Fx4.sub_w, Fx4.mul_x, Fx4.mul_y, Fx4.mul_z, Fx4.mul_w, Fx4.sqrt_x,
      Fx4.sqrt_y, Fx4.sqrt_z, Fx4.sqrt_w, Fx4.recip_x, Fx4.abs_x, Fx4.abs_z,
      fx4_splat_x_x, fx4_splat_x_y, fx4_splat_x_z, fx4_splat_x_w,
      fx4_splat_y_x, fx4_splat_y_y, fx4_splat_y_z, fx4_splat_y_w,
      fx4_splat_z_x, fx4_splat_z_y, fx4_splat_z_z, fx4_splat_z_w,
      fx4_set_y_x, fx4_set_y_y, fx4_set_y_z, fx4_set_y_w,
      fx4_set_z_x, fx4_set_z_y, fx4_set_z_z, fx4_set_z_w,
      fx4_set_w_x, fx4_set_w_y, fx4_set_w_z, fx4_set_w_w,
      fx4_clamp_x, fx4_clamp_y, fx4_clamp_z, fx4_clamp_w,
      ZERO_x, ZERO_y, ZERO_z, ZERO_w, ONE_x, ONE_y, ONE_z, ONE_w, THREE_x, THREE_y,
      max_zero_zero_real, min_zero_one_real, mul_zero] at hc
    exact h hc
  case isFalse hc =>
    exact ⟨rfl, rfl⟩

/-- The code's softened length is strictly below full extension whenever the
mask fires. -/
theorem softLen_lt_chain (j : IKTwoBoneJob)
    (hx : j.softenDa < j.targetDist) (hw : 0 < j.softenDs) :
    j.softLen < j.boneLen1 + j.boneLen2 := by
  have hchain : j.softenDa + j.softenDs = j.boneLen1 + j.boneLen2 := by
    unfold IKTwoBoneJob.softenDs
    ring
  have hα : 0 < (j.targetDist - j.softenDa) / j.softenDs := div_pos (by linarith) hw
  have hr : 0 < 3 ^ 4 / (3 + (j.targetDist - j.softenDa) / j.softenDs) ^ 4 := by positivity
  unfold IKTwoBoneJob.softLen
  nlinarith [mul_pos hw hr]

/-- After the validity and weight gates, `run` performs the full solve. -/
theorem run_full (j : IKTwoBoneJob) (hv : j.validate) (hw : 0 < j.weight) :
    j.run =
      (({ j with reached := (j.soften_target (IKConstantSetup.new j)).1 ∧ 1 ≤ j.weight } :
          IKTwoBoneJob).weight_output
        (j.compute_start_joint (IKConstantSetup.new j)
          (j.compute_mid_joint (IKConstantSetup.new j)
            (j.soften_target (IKConstantSetup.new j)).2.2)
          (j.soften_target (IKConstantSetup.new j)).2.1
          (j.soften_target (IKConstantSetup.new j)).2.2)
        (j.compute_mid_joint (IKConstantSetup.new j)
          (j.soften_target (IKConstantSetup.new j)).2.2),
      .ok ()) := by
  unfold IKTwoBoneJob.run
  rw [if_neg (not_not_intro hv), if_neg (not_le.mpr hw)]

/-- C4 (amended): after a successful `run` with weight > 0, `reached` is true
iff the pre-soften start-to-target distance exceeds `|L1 - L2|` and is at
most the soften reach `da = (L1 + L2) * clamp(soften, 0, 1)`, and the weight
is at least 1.  (The claim's "post-soften target within the triangle formed
by L1, L2" does not match the code: `reached` is computed from the
pre-soften distance, and a softened target inside the triangle still gives
`reached = false` — see the counterexample.) -/
theorem C4_reached_iff (j : IKTwoBoneJob) (hv : j.validate) (hw : 0 < j.weight) :
    (j.run).2 = .ok () ∧
    ((j.run).1.reached ↔
      (|j.boneLen1 - j.boneLen2| < j.targetDist ∧ j.targetDist ≤ j.softenDa ∧
        1 ≤ j.weight)) := by
  rw [run_full j hv hw]
  refine ⟨rfl, ?_⟩
  rw [IKTwoBoneJob.weight_output_reached]
  show ((j.soften_target (IKConstantSetup.new j)).1 ∧ 1 ≤ j.weight) ↔ _
  rw [soften_target_fst_iff, not_lt]
  tauto

/-- C5 (amended): the softening branch is taken exactly when the code's
three mask lanes hold — `Lt > da`, `Lt > 0` and `ds > 0` (not the spec's
`|L1 - L2| < ds`); when taken, the squared distance handed to the solver is
exactly `(da + ds - ds * 3^4/(3 + alpha)^4)^2` with `alpha = (Lt - da)/ds`,
strictly below full extension; otherwise the target distance is unchanged. -/
theorem C5_soften_target (j : IKTwoBoneJob) :
    (j.softenDa < j.targetDist → 0 < j.targetDist → 0 < j.softenDs →
      (j.soften_target (IKConstantSetup.new j)).2.2.x = j.softLen ^ 2 ∧
        j.softLen < j.boneLen1 + j.boneLen2) ∧
    (¬ (j.softenDa < j.targetDist ∧ 0 < j.targetDist ∧ 0 < j.softenDs) →
      (j.soften_target (IKConstantSetup.new j)).2.1 =
          (IKConstantSetup.new j).inv_start_joint.transform_point j.target ∧
        (j.soften_target (IKConstantSetup.new j)).2.2 =
          vec3_length2_s ((IKConstantSetup.new j).inv_start_joint.transform_point
            j.target)) :=
  ⟨fun hx hy hw => ⟨soften_target_len2_engaged j hx hy hw, softLen_lt_chain j hx hw⟩,
   soften_target_pair_not_engaged j⟩

/-! ## Concrete fixtures for the soften/reached claims -/

/-- Distance from the start joint to the (possibly softened) target the
solver actually uses: the root of `soften_target`'s returned squared
length. -/
noncomputable def IKTwoBoneJob.postSoftenDist (j : IKTwoBoneJob) : ℝ :=
  Real.sqrt (j.soften_target (IKConstantSetup.new j)).2.2.x

/-- A pure translation model matrix, used to build concrete test chains. -/
noncomputable def translationM (tx ty tz : ℝ) : AosMat4 :=
  ⟨![⟨1, 0, 0, 0⟩, ⟨0, 1, 0, 0⟩, ⟨0, 0, 1, 0⟩, ⟨tx, ty, tz, 1⟩]⟩

theorem toMatrix_ofMatrix (A : Matrix (Fin 4) (Fin 4) ℝ) :
    (AosMat4.ofMatrix A).toMatrix = A := by
  funext i j
  fin_cases i <;> rfl

theorem invert_identity : AosMat4.identity.invert = AosMat4.identity := by
  unfold AosMat4.invert AosMat4.identity
  rw [toMatrix_ofMatrix, inv_one]

theorem transform_point_identity (v : Fx4) :
    AosMat4.identity.transform_point v = ⟨v.x, v.y, v.z, 1⟩ := by
  unfold AosMat4.transform_point AosMat4.identity
  rw [toMatrix_ofMatrix, Matrix.one_mulVec]
  rfl

/-- Fixture chain of the repository's soften test: start at the origin
(identity), mid at (0,1,0), end at (1,1,0) — bone lengths 1 and 1 —
`soften = 0.5`, weight 1, target on the x axis at distance 1.2. -/
noncomputable def softJobA : IKTwoBoneJob :=
  { IKTwoBoneJob.default with
      mid_joint := translationM 0 1 0
      end_joint := translationM 1 1 0
      target := ⟨6 / 5, 0, 0, 0⟩
      soften := 1 / 2 }

/-- The same chain with the target at distance 1.0. -/
noncomputable def softJobB : IKTwoBoneJob :=
  { softJobA with target := ⟨1, 0, 0, 0⟩ }

/-- A chain with unequal bones (lengths 1 and 3), `soften = 0.9`, target at
distance 3.8: the code's soften mask fires although `|L1-L2| ≥ ds`. -/
noncomputable def softJobC : IKTwoBoneJob :=
  { IKTwoBoneJob.default with
      mid_joint := translationM 1 0 0
      end_joint := translationM 4 0 0
      target := ⟨19 / 5, 0, 0, 0⟩
      soften := 9 / 10 }

theorem softJobA_lens :
    softJobA.boneLen1 = 1 ∧ softJobA.boneLen2 = 1 ∧ softJobA.targetDist = 6 / 5 ∧
      softJobA.softenDa = 1 ∧ softJobA.softenDs = 1 := by
  have h1 : (IKConstantSetup.new softJobA).start_mid_ss_len2.x = 1 := by
    show (vec3_length2_s
      (softJobA.start_joint.invert.transform_point (softJobA.mid_joint.cols 3))).x = 1
    rw [show softJobA.start_joint = AosMat4.identity from rfl, invert_identity,
      show softJobA.mid_joint.cols 3 = (⟨0, 1, 0, 1⟩ : Fx4) from rfl,
      transform_point_identity]
    norm_num
  have h2 : (IKConstantSetup.new softJobA).mid_end_ss_len2.x = 1 := by
    show (vec3_length2_s
      (softJobA.start_joint.invert.transform_point (softJobA.end_joint.cols 3) -
        softJobA.start_joint.invert.transform_point (softJobA.mid_joint.cols 3))).x = 1
    rw [show softJobA.start_joint = AosMat4.identity from rfl, invert_identity,
      show softJobA.mid_joint.cols 3 = (⟨0, 1, 0, 1⟩ : Fx4) from rfl,
      show softJobA.end_joint.cols 3 = (⟨1, 1, 0, 1⟩ : Fx4) from rfl,
      transform_point_identity, transform_point_identity]
    show (1 - 0) * (1 - 0) + (1 - 1) * (1 - 1) + (0 - 0) * (0 - 0) = 1
    norm_num
  have h3 : (vec3_length2_s ((IKConstantSetup.new softJobA).inv_start_joint.transform_point
      softJobA.target)).x = 36 / 25 := by
    show (vec3_length2_s
      (softJobA.start_joint.invert.transform_point softJobA.target)).x = 36 / 25
    rw [show softJobA.start_joint = AosMat4.identity from rfl, invert_identity,
      show softJobA.target = (⟨6 / 5, 0, 0, 0⟩ : Fx4) from rfl, transform_point_identity]
    norm_num
  have b1 : softJobA.boneLen1 = 1 := by
    unfold IKTwoBoneJob.boneLen1
    rw [h1, Real.sqrt_one]
  have b2 : softJobA.boneLen2 = 1 := by
    unfold IKTwoBoneJob.boneLen2
    rw [h2, Real.sqrt_one]
  have b3 : softJobA.targetDist = 6 / 5 := by
    unfold IKTwoBoneJob.targetDist
    rw [h3, show (36 / 25 : ℝ) = (6 / 5) ^ 2 by norm_num, Real.sqrt_sq (by norm_num)]
  have b4 : softJobA.softenDa = 1 := by
    unfold IKTwoBoneJob.softenDa
    rw [b1, b2, show softJobA.soften = 1 / 2 from rfl]
    norm_num
  have b5 : softJobA.softenDs = 1 := by
    unfold IKTwoBoneJob.softenDs
    rw [b1, b2, b4]
    norm_num
  exact ⟨b1, b2, b3, b4, b5⟩

theorem softJobB_lens :
    softJobB.boneLen1 = 1 ∧ softJobB.boneLen2 = 1 ∧ softJobB.targetDist = 1 ∧
      softJobB.softenDa = 1 ∧ softJobB.softenDs = 1 := by
  have h1 : (IKConstantSetup.new softJobB).start_mid_ss_len2.x = 1 := by
    show (vec3_length2_s
      (softJobB.start_joint.invert.transform_point (softJobB.mid_joint.cols 3))).x = 1
    rw [show softJobB.start_joint = AosMat4.identity from rfl, invert_identity,
      show softJobB.mid_joint.cols 3 = (⟨0, 1, 0, 1⟩ : Fx4) from rfl,
      transform_point_identity]
    norm_num
  have h2 : (IKConstantSetup.new softJobB).mid_end_ss_len2.x = 1 := by
    show (vec3_length2_s
      (softJobB.start_joint.invert.transform_point (softJobB.end_joint.cols 3) -
        softJobB.start_joint.invert.transform_point (softJobB.mid_joint.cols 3))).x = 1
    rw [show softJobB.start_joint = AosMat4.identity from rfl, invert_identity,
      show softJobB.mid_joint.cols 3 = (⟨0, 1, 0, 1⟩ : Fx4) from rfl,
      show softJobB.end_joint.cols 3 = (⟨1, 1, 0, 1⟩ : Fx4) from rfl,
      transform_point_identity, transform_point_identity]
    show (1 - 0) * (1 - 0) + (1 - 1) * (1 - 1) + (0 - 0) * (0 - 0) = 1
    norm_num
  have h3 : (vec3_length2_s ((IKConstantSetup.new softJobB).inv_start_joint.transform_point
      softJobB.target)).x = 1 := by
    show (vec3_length2_s
      (softJobB.start_joint.invert.transform_point softJobB.target)).x = 1
    rw [show softJobB.start_joint = AosMat4.identity from rfl, invert_identity,
      show softJobB.target = (⟨1, 0, 0, 0⟩ : Fx4) from rfl, transform_point_identity]
    norm_num
  have b1 : softJobB.boneLen1 = 1 := by
    unfold IKTwoBoneJob.boneLen1
    rw [h1, Real.sqrt_one]
  have b2 : softJobB.boneLen2 = 1 := by
    unfold IKTwoBoneJob.boneLen2
    rw [h2, Real.sqrt_one]
  have b3 : softJobB.targetDist = 1 := by
    unfold IKTwoBoneJob.targetDist
    rw [h3, Real.sqrt_one]
  have b4 : softJobB.softenDa = 1 := by
    unfold IKTwoBoneJob.softenDa
    rw [b1, b2, show softJobB.soften = 1 / 2 from rfl]
    norm_num
  have b5 : softJobB.softenDs = 1 := by
    unfold IKTwoBoneJob.softenDs
    rw [b1, b2, b4]
    norm_num
  exact ⟨b1, b2, b3, b4, b5⟩

theorem softJobC_lens :
    softJobC.boneLen1 = 1 ∧ softJobC.boneLen2 = 3 ∧ softJobC.targetDist = 19 / 5 ∧
      softJobC.softenDa = 18 / 5 ∧ softJobC.softenDs = 2 / 5 := by
  have h1 : (IKConstantSetup.new softJobC).start_mid_ss_len2.x = 1 := by
    show (vec3_length2_s
      (softJobC.start_joint.invert.transform_point (softJobC.mid_joint.cols 3))).x = 1
    rw [show softJobC.start_joint = AosMat4.identity from rfl, invert_identity,
      show softJobC.mid_joint.cols 3 = (⟨1, 0, 0, 1⟩ : Fx4) from rfl,
      transform_point_identity]
    norm_num
  have h2 : (IKConstantSetup.new softJobC).mid_end_ss_len2.x = 9 := by
    show (vec3_length2_s
      (softJobC.start_joint.invert.transform_point (softJobC.end_joint.cols 3) -
        softJobC.start_joint.invert.transform_point (softJobC.mid_joint.cols 3))).x = 9
    rw [show softJobC.start_joint = AosMat4.identity from rfl, invert_identity,
      show softJobC.mid_joint.cols 3 = (⟨1, 0, 0, 1⟩ : Fx4) from rfl,
      show softJobC.end_joint.cols 3 = (⟨4, 0, 0, 1⟩ : Fx4) from rfl,
      transform_point_identity, transform_point_identity]
    show (4 - 1) * (4 - 1) + (0 - 0) * (0 - 0) + (0 - 0) * (0 - 0) = 9
    norm_num
  have h3 : (vec3_length2_s ((IKConstantSetup.new softJobC).inv_start_joint.transform_point
      softJobC.target)).x = 361 / 25 := by
    show (vec3_length2_s
      (softJobC.start_joint.invert.transform_point softJobC.target)).x = 361 / 25
    rw [show softJobC.start_joint = AosMat4.identity from rfl, invert_identity,
      show softJobC.target = (⟨19 / 5, 0, 0, 0⟩ : Fx4) from rfl, transform_point_identity]
    norm_num
  have b1 : softJobC.boneLen1 = 1 := by
    unfold IKTwoBoneJob.boneLen1
    rw [h1, Real.sqrt_one]
  have b2 : softJobC.boneLen2 = 3 := by
    unfold IKTwoBoneJob.boneLen2
    rw [h2, show (9 : ℝ) = 3 ^ 2 by norm_num, Real.sqrt_sq (by norm_num)]
  have b3 : softJobC.targetDist = 19 / 5 := by
    unfold IKTwoBoneJob.targetDist
    rw [h3, show (361 / 25 : ℝ) = (19 / 5) ^ 2 by norm_num, Real.sqrt_sq (by norm_num)]
  have b4 : softJobC.softenDa = 18 / 5 := by
    unfold IKTwoBoneJob.softenDa
    rw [b1, b2, show softJobC.soften = 9 / 10 from rfl]
    norm_num
  have b5 : softJobC.softenDs = 2 / 5 := by
    unfold IKTwoBoneJob.softenDs
    rw [b1, b2, b4]
    norm_num
  exact ⟨b1, b2, b3, b4, b5⟩

theorem softJob_validate :
    softJobA.validate ∧ softJobB.validate ∧ softJobC.validate := by
  refine ⟨?_, ?_, ?_⟩ <;>
  · show vec3_is_normalized Z_AXIS
    unfold vec3_is_normalized Z_AXIS kNormalizationToleranceSq
    norm_num

/-- Counterexample to C4 as stated: on the fixture chain (bones 1 and 1,
soften 0.5, weight 1) with the target at distance 1.2, the post-soften
target lies within the triangle formed by L1 and L2 (its distance is
80447/65536 ≈ 1.2275, between |L1-L2| = 0 and L1+L2 = 2) and weight ≥ 1,
yet `run` succeeds with `reached = false`. -/
theorem C4_counterexample :
    (softJobA.run).2 = .ok () ∧
    |softJobA.boneLen1 - softJobA.boneLen2| < softJobA.postSoftenDist ∧
    softJobA.postSoftenDist < softJobA.boneLen1 + softJobA.boneLen2 ∧
    1 ≤ softJobA.weight ∧
    ¬ ((softJobA.run).1.reached ↔
      (|softJobA.boneLen1 - softJobA.boneLen2| < softJobA.postSoftenDist ∧
        softJobA.postSoftenDist < softJobA.boneLen1 + softJobA.boneLen2 ∧
        1 ≤ softJobA.weight)) := by
  obtain ⟨b1, b2, b3, b4, b5⟩ := softJobA_lens
  have hv := softJob_validate.1
  have hw0 : (0 : ℝ) < softJobA.weight := by
    rw [show softJobA.weight = 1 from rfl]
    norm_num
  have hx : softJobA.softenDa < softJobA.targetDist := by
    rw [b3, b4]
    norm_num
  have hy : 0 < softJobA.targetDist := by
    rw [b3]
    norm_num
  have hds : 0 < softJobA.softenDs := by
    rw [b5]
    norm_num
  have hsl : softJobA.softLen = 80447 / 65536 := by
    unfold IKTwoBoneJob.softLen
    rw [b3, b4, b5]
    norm_num
  have hpost : softJobA.postSoftenDist = 80447 / 65536 := by
    unfold IKTwoBoneJob.postSoftenDist
    rw [soften_target_len2_engaged softJobA hx hy hds, hsl,
      Real.sqrt_sq (by norm_num)]
  have hnr : ¬ (softJobA.run).1.reached := by
    rw [run_full softJobA hv hw0, IKTwoBoneJob.weight_output_reached]
    show ¬ ((softJobA.soften_target (IKConstantSetup.new softJobA)).1 ∧
      1 ≤ softJobA.weight)
    rw [soften_target_fst_iff]
    rintro ⟨⟨_, hno⟩, _⟩
    exact hno hx
  have htri1 : |softJobA.boneLen1 - softJobA.boneLen2| < softJobA.postSoftenDist := by
    rw [hpost, b1, b2]
    norm_num
  have htri2 : softJobA.postSoftenDist < softJobA.boneLen1 + softJobA.boneLen2 := by
    rw [hpost, b1, b2]
    norm_num
  have hw1 : (1 : ℝ) ≤ softJobA.weight := by
    rw [show softJobA.weight = 1 from rfl]
  refine ⟨?_, htri1, htri2, hw1, ?_⟩
  · rw [run_full softJobA hv hw0]
  · intro hiff
    exact hnr (hiff.mpr ⟨htri1, htri2, hw1⟩)

/-- Witness for C4 at the fixture's reachable case: target at distance 1.0
gives `reached = true` (and `run` succeeds). -/
theorem C4_reached_iff_witness :
    (softJobB.run).2 = .ok () ∧ (softJobB.run).1.reached := by
  obtain ⟨b1, b2, b3, b4, b5⟩ := softJobB_lens
  have h := C4_reached_iff softJobB softJob_validate.2.1
    (by rw [show softJobB.weight = 1 from rfl]; norm_num)
  refine ⟨h.1, h.2.mpr ⟨?_, ?_, ?_⟩⟩
  · rw [b1, b2, b3]
    norm_num
  · rw [b3, b4]
  · rw [show softJobB.weight = 1 from rfl]

/-- Witness for C5 on the unequal-bones chain: the soften mask fires and
the solver distance is the exact quartic-falloff formula value. -/
theorem C5_soften_target_witness :
    (softJobC.soften_target (IKConstantSetup.new softJobC)).2.2.x =
        softJobC.softLen ^ 2 ∧
      softJobC.softLen < softJobC.boneLen1 + softJobC.boneLen2 := by
  obtain ⟨b1, b2, b3, b4, b5⟩ := softJobC_lens
  exact (C5_soften_target softJobC).1
    (by rw [b3, b4]; norm_num) (by rw [b3]; norm_num) (by rw [b5]; norm_num)

/-- Counterexample to C5 as stated: on the chain with bones 1 and 3,
`soften = 0.9` and target distance 3.8, the spec's engagement condition
`|L1 - L2| < ds` fails (2 ≥ 2/5), so by the claim the distance would be
used unchanged; the code nevertheless softens it to 45428/12005 ≈ 3.784,
whose square differs from `Lt² = (19/5)²`. -/
theorem C5_counterexample :
    softJobC.softenDs ≤ |softJobC.boneLen1 - softJobC.boneLen2| ∧
    softJobC.softenDa < softJobC.targetDist ∧
    (softJobC.soften_target (IKConstantSetup.new softJobC)).2.2.x ≠
      softJobC.targetDist ^ 2 := by
  obtain ⟨b1, b2, b3, b4, b5⟩ := softJobC_lens
  have hx : softJobC.softenDa < softJobC.targetDist := by
    rw [b3, b4]
    norm_num
  have hy : 0 < softJobC.targetDist := by
    rw [b3]
    norm_num
  have hds : 0 < softJobC.softenDs := by
    rw [b5]
    norm_num
  have hsl : softJobC.softLen = 45428 / 12005 := by
    unfold IKTwoBoneJob.softLen
    rw [b3, b4, b5]
    norm_num
  refine ⟨?_, hx, ?_⟩
  · rw [b1, b2, b5]
    norm_num
  · rw [soften_target_len2_engaged softJobC hx hy hds, hsl, b3]
    norm_num

end Ozz
